import Mathlib

/-!
The reconciliation engine of sync-pod-to-clb.

A shallow embedding of the Go sources `main.go`, `config.go` and the data
types of `tencent.go`, followed by theorems about the diff-and-sync pass
(`syncPodToLB`) and the rule-matching cache (`loadConfig`, `GetTargets`).

Conventions of the embedding:

* Go `string` is `String`, Go `int` is `Int` (no arithmetic is performed on
  ports, so no wrap-around can occur), a Go slice is a `List` (a `nil` slice
  and an empty slice are both `[]`; the code only ever inspects `len`).
* A Go `map[string][]T` is a total function `String → List T`; a key that is
  absent maps to `[]`, which is what `m[key]` returns in Go.
* `for _, x := range xs` loops are `List.foldl` over the loop state and
  `append(s, x)` is `s ++ [x]`.
* Calls to the outside world (reading `rules.yaml`, the cloud API) are
  recorded in an event log; their answers are inputs of the model.
-/

namespace SyncPodToClb

/-! ## Data model (`config.go`, `tencent.go`) -/

/-- Go `ConfigTarget` (config.go). -/
structure ConfigTarget where
  LoadBalancerID : String
  ListenerID : String
  LocationID : String
  Port : Int
deriving DecidableEq, Repr

/-- Go `Backend` (config.go). -/
structure Backend where
  IP : String
  Port : Int
deriving DecidableEq, Repr

/-- The anonymous `Backend` struct of a declared rule in `RuleConfig`. -/
structure RuleBackend where
  Namespace : String
  Deployment : String
  Port : Int
deriving DecidableEq, Repr

/-- The anonymous element type of `RuleConfig.Listeners[i].Rules`. -/
structure ConfigRule where
  Domain : String
  URL : String
  Backend : RuleBackend
deriving DecidableEq, Repr

/-- The anonymous element type of `RuleConfig.Listeners`. -/
structure ConfigListener where
  Port : Int
  Protocol : String
  Rules : List ConfigRule
deriving DecidableEq, Repr

/-- Go `RuleConfig` (config.go): one load balancer of the rule document. -/
structure RuleConfig where
  LoadBalancerID : String
  Listeners : List ConfigListener
deriving DecidableEq, Repr

/-- Go `RegisterTarget` (tencent.go). -/
structure RegisterTarget where
  LoadBalancerID : String
  ListenerID : String
  LocationID : String
  Port : Int
  EniIP : String
deriving DecidableEq, Repr

/-- Go `DeregisterTarget` (tencent.go). -/
structure DeregisterTarget where
  LoadBalancerID : String
  ListenerID : String
  LocationID : String
  EniIP : String
  Port : Int
deriving DecidableEq, Repr

/-- Go `Target` (tencent.go): a registered target of a live rule. -/
structure Target where
  Port : Int
  PrivateIPAddresses : List String
deriving DecidableEq, Repr

/-- Go `Rule` (tencent.go): a live forwarding rule. -/
structure Rule where
  Domain : String
  LocationID : String
  URL : String
  Targets : List Target
deriving DecidableEq, Repr

/-- Go `Listener` (tencent.go): a live listener. -/
structure Listener where
  ListenerID : String
  Port : Int
  Protocol : String
  Rules : List Rule
deriving DecidableEq, Repr

/-! ## Go maps -/

/-- A Go `map[string][]α`, read through `m[key]`. -/
abbrev GoMap (α : Type) := String → List α

/-- The map `make(map[string][]α)`. -/
def GoMap.empty {α : Type} : GoMap α := fun _ => []

/-- The map after `m[key] = v`. -/
def GoMap.set {α : Type} (m : GoMap α) (key : String) (v : List α) : GoMap α :=
  fun k => if k = key then v else m k

/-! ## Helpers of `main.go` -/

/-- Go `difference` (main.go): `mb` is the key set built from `b`, then the
elements of `a` not found in `mb` are appended in order. -/
def difference (a b : List String) : List String :=
  let mb : String → Bool :=
    b.foldl (fun m x => fun k => if k = x then true else m k) (fun _ => false)
  a.foldl (fun diff x => if mb x then diff else diff ++ [x]) []

/-- Go `intersection` (main.go): same as `difference` with the test negated. -/
def intersection (a b : List String) : List String :=
  let mb : String → Bool :=
    b.foldl (fun m x => fun k => if k = x then true else m k) (fun _ => false)
  a.foldl (fun inter x => if mb x then inter ++ [x] else inter) []

/-! ## String formatting and scanning (Go standard library, as used here) -/

/-- The verb `%d` applied to a Go `int`: decimal digits, with a leading `-`
for a negative number. -/
def formatInt (i : Int) : String := toString i

/-- Go `fmt.Sprintf("%s:%d", ip, port)`. -/
def formatIPPort (ip : String) (port : Int) : String :=
  ip ++ ":" ++ formatInt port

/-- Go `fmt.Sprintf("%s/%s", ns, deploy)`: the key of the targets index. -/
def targetKey (ns deploy : String) : String :=
  ns ++ "/" ++ deploy

/-- Go `fmt.Sprintf("%s/%s/%s/%s/%s", ns, deploy, lb, listener, location)`:
the composite key of the backends index. -/
def backendKeyOf (ns deploy loadBalancerID listenerID locationID : String) : String :=
  ns ++ "/" ++ deploy ++ "/" ++ loadBalancerID ++ "/" ++ listenerID ++ "/" ++ locationID

/-- Go `strings.ToLower`, on the ASCII range (`Char.toLower` maps `A`-`Z` to
`a`-`z` and leaves every other character alone). Go also folds letters
outside ASCII (U+212A to `k`, U+0130 to `i`); none of them folds to a letter
of `http` or `https`, the only lowered live protocols `loadConfig` compares
against, so the comparison there has the same outcome. The theorems below
use `toLower` only through equality of its results. -/
def toLower (s : String) : String := ⟨s.data.map Char.toLower⟩

/-- The pieces of a character list between its colons. -/
def splitOnColon : List Char → List (List Char)
  | [] => [[]]
  | c :: cs =>
    if c = ':' then [] :: splitOnColon cs
    else
      match splitOnColon cs with
      | [] => [[c]]
      | p :: ps => (c :: p) :: ps

/-- Go `strings.Split(s, ":")`. -/
def splitColon (s : String) : List String :=
  (splitOnColon s.data).map String.mk

/-- The `isSpace` table of Go's `fmt` scanner. -/
def isSpace (c : Char) : Bool :=
  let n := c.toNat
  (0x09 ≤ n && n ≤ 0x0d) || n == 0x20 || n == 0x85 || n == 0xa0 || n == 0x1680
    || (0x2000 ≤ n && n ≤ 0x200a) || n == 0x2028 || n == 0x2029 || n == 0x202f
    || n == 0x205f || n == 0x3000

/-- The scanner's `SkipSpace` for `Sscanf`: leading space is dropped, a
newline among it is an error (`none`). -/
def skipSpace : List Char → Option (List Char)
  | [] => some []
  | c :: cs =>
    if c = '\r' ∧ cs.head? = some '\n' then skipSpace cs
    else if c = '\n' then none
    else if isSpace c then skipSpace cs
    else some (c :: cs)

/-- The characters `scanNumber` accepts for the verb `%d`: `0123456789`. -/
def isDecimalDigit (c : Char) : Bool :=
  '0'.toNat ≤ c.toNat && c.toNat ≤ '9'.toNat

/-- The value of decimal digits, most significant first. -/
def digitsValue (tok : List Char) : Nat :=
  tok.foldl (fun n c => 10 * n + (c.toNat - '0'.toNat)) 0

/-- The value left in `port` by `port := 0; fmt.Sscanf(s, "%d", &port)`, whose
error result the code drops: space is skipped, an optional sign and then the
longest run of decimal digits are read, and the token is handed to
`strconv.ParseInt(tok, 10, 64)`. On any error (newline, no digit, a value
outside the 64-bit range) `port` keeps its `0`. What follows the token, an
underscore included, is ignored. -/
def sscanInt (s : String) : Int :=
  match skipSpace s.data with
  | none => 0
  | some s1 =>
    let signed : Bool × List Char :=
      match s1 with
      | '+' :: r => (false, r)
      | '-' :: r => (true, r)
      | _ => (false, s1)
    let tok := signed.2.takeWhile isDecimalDigit
    if tok = [] then 0
    else
      let un := digitsValue tok
      if signed.1 then (if un > 2 ^ 63 then 0 else - (un : Int))
      else (if un ≥ 2 ^ 63 then 0 else (un : Int))

/-! ## The outside world -/

/-- What `ioutil.ReadFile("rules.yaml")` followed by `yaml.Unmarshal` yields:
a read error, a parse error, or the parsed document. -/
inductive RulesFile where
  | unreadable : RulesFile
  | unparsable : RulesFile
  | parsed (configs : List RuleConfig) : RulesFile
deriving DecidableEq, Repr

/-- The answers of the outside world during one call: the rule document, and
for each load-balancer id the listeners in the `DescribeTargets` response
(`none` when the call returns an error). An id asked twice within one call
gets the same answer. -/
structure World where
  rulesFile : RulesFile
  describeTargets : String → Option (List Listener)

/-- A call to the outside world, in the order issued. -/
inductive Event where
  | ReadFile : Event
  | DescribeTargets (loadBalancerID : String) : Event
  | BatchRegisterTargets (loadBalancerID : String) (targets : List RegisterTarget) : Event
  | BatchDeregisterTargets (loadBalancerID : String) (targets : List DeregisterTarget) : Event
deriving DecidableEq, Repr

/-- The errors `loadConfig` returns. -/
inductive LoadError where
  | readFailed : LoadError
  | parseFailed : LoadError
deriving DecidableEq, Repr

/-! ## The config cache (`config.go`) -/

/-- Go `Config` (config.go). `lastLoad` is a reading of the clock in
nanoseconds; the mutex and the client are not state of the sequential model. -/
structure Config where
  targets : GoMap ConfigTarget
  backends : GoMap Backend
  lastLoad : Int

/-- The constant `60*time.Second`, in nanoseconds. -/
def ttl : Int := 60 * 1000000000

/-- Go `time.Since(t)` at clock reading `now`. Go saturates the difference to
the 64-bit range, which changes no comparison with `ttl`. -/
def since (now t : Int) : Int := now - t

/-- Go `Config.getListeners`: the listeners of the response whose protocol is
`HTTP` or `HTTPS`, or the error. -/
def getListeners (w : World) (loadBalancerID : String) : Option (List Listener) :=
  match w.describeTargets loadBalancerID with
  | none => none
  | some response =>
    some (response.foldl (fun listeners listener =>
      if listener.Protocol = "HTTP" ∨ listener.Protocol = "HTTPS" then
        listeners ++ [listener]
      else listeners) [])

/-- The state of the loops of `loadConfig`: the two maps under construction
and the calls issued so far. -/
structure LoadState where
  targets : GoMap ConfigTarget
  backends : GoMap Backend
  events : List Event

/-- The loop `for _, target := range rule.Targets` of `loadConfig`. -/
def ruleBackends (targets : List Target) : List Backend :=
  targets.foldl (fun backends target =>
    match target.PrivateIPAddresses with
    | ip :: _ => backends ++ [{ IP := ip, Port := target.Port }]
    | [] => backends) []

/-- The body of `for _, rule := range listener.Rules` in `loadConfig`. -/
def processRule (loadBalancerID : String) (listener : Listener) (configRule : ConfigRule)
    (st : LoadState) (rule : Rule) : LoadState :=
  if configRule.Domain = rule.Domain ∧ configRule.URL = rule.URL then
    let ns := configRule.Backend.Namespace
    let deploy := configRule.Backend.Deployment
    let port := configRule.Backend.Port
    let target : ConfigTarget :=
      { LoadBalancerID := loadBalancerID, ListenerID := listener.ListenerID,
        LocationID := rule.LocationID, Port := port }
    let key := targetKey ns deploy
    let st1 : LoadState := { st with targets := st.targets.set key (st.targets key ++ [target]) }
    let backends := ruleBackends rule.Targets
    if backends.length > 0 then
      let backendKey :=
        backendKeyOf ns deploy loadBalancerID listener.ListenerID rule.LocationID
      { st1 with backends := st1.backends.set backendKey backends }
    else st1
  else st

/-- The body of `for _, configRule := range configListener.Rules`. -/
def processConfigRule (loadBalancerID : String) (listener : Listener)
    (st : LoadState) (configRule : ConfigRule) : LoadState :=
  listener.Rules.foldl (processRule loadBalancerID listener configRule) st

/-- The body of `for _, listener := range listeners`. -/
def processListener (loadBalancerID : String) (configListener : ConfigListener)
    (st : LoadState) (listener : Listener) : LoadState :=
  if configListener.Port = listener.Port
      ∧ toLower configListener.Protocol = toLower listener.Protocol then
    configListener.Rules.foldl (processConfigRule loadBalancerID listener) st
  else st

/-- The body of `for _, configListener := range config.Listeners`. -/
def processConfigListener (loadBalancerID : String) (listeners : List Listener)
    (st : LoadState) (configListener : ConfigListener) : LoadState :=
  listeners.foldl (processListener loadBalancerID configListener) st

/-- The body of `for _, config := range configs`: the resolver is called, and
on an error the load balancer is skipped (`continue`). -/
def processConfig (w : World) (st : LoadState) (config : RuleConfig) : LoadState :=
  let st1 : LoadState :=
    { st with events := st.events ++ [Event.DescribeTargets config.LoadBalancerID] }
  match getListeners w config.LoadBalancerID with
  | none => st1
  | some listeners =>
    config.Listeners.foldl (processConfigListener config.LoadBalancerID listeners) st1

/-- The result of `loadConfig`: the returned error (`none` is `nil`), the cache
after the call and the calls issued. -/
structure LoadResult where
  err : Option LoadError
  config : Config
  events : List Event

/-- Go `Config.loadConfig`. `now` is the clock reading of `time.Since` at the
top and `nowEnd` the reading of `time.Now()` at the bottom. -/
def loadConfig (w : World) (now nowEnd : Int) (c : Config) : LoadResult :=
  if since now c.lastLoad < ttl then
    { err := none, config := c, events := [] }
  else
    match w.rulesFile with
    | RulesFile.unreadable =>
      { err := some LoadError.readFailed, config := c, events := [Event.ReadFile] }
    | RulesFile.unparsable =>
      { err := some LoadError.parseFailed, config := c, events := [Event.ReadFile] }
    | RulesFile.parsed configs =>
      let st := configs.foldl (processConfig w)
        { targets := GoMap.empty, backends := GoMap.empty, events := [Event.ReadFile] }
      { err := none,
        config := { targets := st.targets, backends := st.backends, lastLoad := nowEnd },
        events := st.events }

/-- The result of `GetTargets`: the returned slice, the cache after the call
and the calls issued. -/
structure LookupResult where
  targets : List ConfigTarget
  config : Config
  events : List Event

/-- Go `Config.GetTargets`. `nowGet` is the clock reading of its own
`time.Since`; `now` and `nowEnd` are those of the `loadConfig` it may call,
whose error it drops. -/
def GetTargets (w : World) (nowGet now nowEnd : Int) (c : Config) (key : String) :
    LookupResult :=
  if since nowGet c.lastLoad ≥ ttl then
    let r := loadConfig w now nowEnd c
    { targets := r.config.targets key, config := r.config, events := r.events }
  else
    { targets := c.targets key, config := c, events := [] }

/-- Go `Config.GetBackendIPs`. -/
def GetBackendIPs (c : Config) (key : String) : List String :=
  (c.backends key).foldl (fun ips backend => ips ++ [backend.IP]) []

/-- Go `Config.GetBackendIPPorts`. -/
def GetBackendIPPorts (c : Config) (key : String) : List String :=
  (c.backends key).foldl
    (fun ipPorts backend => ipPorts ++ [formatIPPort backend.IP backend.Port]) []

/-- Go `Config.GetBackendChangePortIPs`. -/
def GetBackendChangePortIPs (c : Config) (key : String) (targetPort : Int) : List String :=
  (c.backends key).foldl
    (fun ipPorts backend =>
      if backend.Port ≠ targetPort then
        ipPorts ++ [formatIPPort backend.IP backend.Port]
      else ipPorts) []

/-! ## The diff-and-sync pass (`main.go`) -/

/-- The additions `newIPs` of `syncPodToLB` for one target. -/
def newIPs (c : Config) (ns deploymentName : String) (podIPs : List String)
    (target : ConfigTarget) : List String :=
  let backendKey :=
    backendKeyOf ns deploymentName target.LoadBalancerID target.ListenerID target.LocationID
  let backendIPs := GetBackendIPs c backendKey
  difference podIPs backendIPs

/-- The removal set `oldIPs` of `syncPodToLB` for one target. -/
def oldIPs (c : Config) (ns deploymentName : String) (podIPs : List String)
    (target : ConfigTarget) : List String :=
  let backendKey :=
    backendKeyOf ns deploymentName target.LoadBalancerID target.ListenerID target.LocationID
  let backendIPPorts := GetBackendIPPorts c backendKey
  let backendChangePortIPs := GetBackendChangePortIPs c backendKey target.Port
  let podIPPorts := podIPs.map (fun ip => formatIPPort ip target.Port)
  intersection (difference backendIPPorts podIPPorts) backendChangePortIPs

/-- The loop building `registerTargets` in `syncPodToLB`. -/
def registerTargetsOf (target : ConfigTarget) (ips : List String) : List RegisterTarget :=
  ips.foldl (fun registerTargets ip =>
    registerTargets ++ [{ LoadBalancerID := target.LoadBalancerID,
                          ListenerID := target.ListenerID,
                          LocationID := target.LocationID,
                          Port := target.Port,
                          EniIP := ip }]) []

/-- The loop building `deregisterTargets` in `syncPodToLB`: a string that does
not split into exactly two parts at its colons is passed over. -/
def deregisterTargetsOf (target : ConfigTarget) (ipPorts : List String) :
    List DeregisterTarget :=
  ipPorts.foldl (fun deregisterTargets ipPort =>
    match splitColon ipPort with
    | [part0, part1] =>
      deregisterTargets ++ [{ LoadBalancerID := target.LoadBalancerID,
                              ListenerID := target.ListenerID,
                              LocationID := target.LocationID,
                              EniIP := part0,
                              Port := sscanInt part1 }]
    | _ => deregisterTargets) []

/-- The body of `for _, target := range targets` in `syncPodToLB`. The results
of the two batch calls are only logged. -/
def syncTarget (c : Config) (ns deploymentName : String) (podIPs : List String)
    (events : List Event) (target : ConfigTarget) : List Event :=
  let loadBalancerID := target.LoadBalancerID
  let added := newIPs c ns deploymentName podIPs target
  let events1 :=
    if added.length > 0 then
      events ++ [Event.BatchRegisterTargets loadBalancerID (registerTargetsOf target added)]
    else events
  let removed := oldIPs c ns deploymentName podIPs target
  if removed.length > 0 then
    events1 ++ [Event.BatchDeregisterTargets loadBalancerID (deregisterTargetsOf target removed)]
  else events1

/-- The errors `syncPodToLB` returns. -/
inductive SyncError where
  | getPodIPsFailed : SyncError
deriving DecidableEq, Repr

/-- The result of `syncPodToLB`: the returned error, the cache after the pass
and the calls issued. -/
structure SyncResult where
  err : Option SyncError
  config : Config
  events : List Event

/-- Go `PodController.syncPodToLB`. `podIPs` is what `getPodIPs` returns
(`none` for an error); the clock readings are those of `GetTargets`. The
arguments `eventType` and `podName` are only logged. -/
def syncPodToLB (w : World) (nowGet now nowEnd : Int) (c : Config)
    (podIPs : Option (List String)) (ns deploymentName : String) : SyncResult :=
  match podIPs with
  | none => { err := some SyncError.getPodIPsFailed, config := c, events := [] }
  | some podIPs =>
    let r := GetTargets w nowGet now nowEnd c (targetKey ns deploymentName)
    if r.targets.length = 0 then
      { err := none, config := r.config, events := r.events }
    else
      { err := none, config := r.config,
        events := r.targets.foldl (syncTarget r.config ns deploymentName podIPs) r.events }

/-- The register calls among the events, in order. -/
def registerCalls (events : List Event) : List (String × List RegisterTarget) :=
  events.filterMap (fun e =>
    match e with
    | Event.BatchRegisterTargets lb ts => some (lb, ts)
    | _ => none)

/-- The deregister calls among the events, in order. -/
def deregisterCalls (events : List Event) : List (String × List DeregisterTarget) :=
  events.filterMap (fun e =>
    match e with
    | Event.BatchDeregisterTargets lb ts => some (lb, ts)
    | _ => none)

/-- The resolver calls among the events, in order. -/
def describeCalls (events : List Event) : List String :=
  events.filterMap (fun e =>
    match e with
    | Event.DescribeTargets lb => some lb
    | _ => none)

/-- The calls one target adds to the log. -/
def targetCalls (c : Config) (ns deploymentName : String) (podIPs : List String)
    (target : ConfigTarget) : List Event :=
  syncTarget c ns deploymentName podIPs [] target

/-- The integer written by an optional `-` and decimal digits; the inverse of
`formatInt`, without the range check of `sscanInt`. -/
def readInt (s : List Char) : Int :=
  match s with
  | '-' :: r => - (digitsValue r : Int)
  | r => (digitsValue r : Int)

/-- A decimal digit character. -/
def IsDigitChar (c : Char) : Prop := 48 ≤ c.toNat ∧ c.toNat ≤ 57

/-- The entry the loop building `deregisterTargets` appends for one string of
the removal set, if any: the body of that loop for one `ipPort`. -/
def deregisterEntry (target : ConfigTarget) (ipPort : String) : Option DeregisterTarget :=
  match splitColon ipPort with
  | [part0, part1] =>
    some { LoadBalancerID := target.LoadBalancerID,
           ListenerID := target.ListenerID,
           LocationID := target.LocationID,
           EniIP := part0,
           Port := sscanInt part1 }
  | _ => none

/-- The deregister entry for the recorded backend `b` under `target`, with the
port as scanned back from its text. -/
def backendEntry (target : ConfigTarget) (b : Backend) : DeregisterTarget :=
  { LoadBalancerID := target.LoadBalancerID,
    ListenerID := target.ListenerID,
    LocationID := target.LocationID,
    EniIP := b.IP,
    Port := sscanInt (formatInt b.Port) }

/-! ## The matches of a refresh, in processing order -/

/-- A declared rule matched against a live rule: the point of `loadConfig`
inside its innermost `if`. -/
structure RuleMatch where
  loadBalancerID : String
  listener : Listener
  configRule : ConfigRule
  rule : Rule
deriving DecidableEq, Repr

/-- The ConfigTarget `loadConfig` creates at a match. -/
def RuleMatch.target (m : RuleMatch) : ConfigTarget :=
  { LoadBalancerID := m.loadBalancerID, ListenerID := m.listener.ListenerID,
    LocationID := m.rule.LocationID, Port := m.configRule.Backend.Port }

/-- The key of the targets index at a match. -/
def RuleMatch.key (m : RuleMatch) : String :=
  targetKey m.configRule.Backend.Namespace m.configRule.Backend.Deployment

/-- The composite key of the backends index at a match. -/
def RuleMatch.backendKey (m : RuleMatch) : String :=
  backendKeyOf m.configRule.Backend.Namespace m.configRule.Backend.Deployment
    m.loadBalancerID m.listener.ListenerID m.rule.LocationID

/-- The backend list `loadConfig` builds at a match. -/
def RuleMatch.snapshot (m : RuleMatch) : List Backend :=
  ruleBackends m.rule.Targets

/-- What `loadConfig` does to its maps at a match. -/
def applyMatch (st : LoadState) (m : RuleMatch) : LoadState :=
  let st1 : LoadState := { st with targets := st.targets.set m.key (st.targets m.key ++ [m.target]) }
  if m.snapshot.length > 0 then
    { st1 with backends := st1.backends.set m.backendKey m.snapshot }
  else st1

/-- The matches of one declared rule within one live listener. -/
def ruleMatches (loadBalancerID : String) (listener : Listener) (configRule : ConfigRule) :
    List RuleMatch :=
  listener.Rules.flatMap (fun rule =>
    if configRule.Domain = rule.Domain ∧ configRule.URL = rule.URL then
      [{ loadBalancerID := loadBalancerID, listener := listener,
         configRule := configRule, rule := rule }]
    else [])

/-- The matches of one declared listener with one live listener. -/
def listenerMatches (loadBalancerID : String) (configListener : ConfigListener)
    (listener : Listener) : List RuleMatch :=
  if configListener.Port = listener.Port
      ∧ toLower configListener.Protocol = toLower listener.Protocol then
    configListener.Rules.flatMap (ruleMatches loadBalancerID listener)
  else []

/-- The matches of one declared listener with the live listeners. -/
def configListenerMatches (loadBalancerID : String) (listeners : List Listener)
    (configListener : ConfigListener) : List RuleMatch :=
  listeners.flatMap (listenerMatches loadBalancerID configListener)

/-- The matches of one load balancer of the document; none when its resolver
call fails. -/
def configMatches (w : World) (config : RuleConfig) : List RuleMatch :=
  match getListeners w config.LoadBalancerID with
  | none => []
  | some listeners =>
    config.Listeners.flatMap (configListenerMatches config.LoadBalancerID listeners)

/-- All matches of a refresh, in the order `loadConfig` meets them. -/
def allMatches (w : World) (configs : List RuleConfig) : List RuleMatch :=
  configs.flatMap (configMatches w)

/-- The value under `key` after the writes `c.backends[backendKey] = backends`
of the given matches, starting from `init`: the last non-empty snapshot
written under that key. -/
def snapshotAt (ms : List RuleMatch) (key : String) (init : List Backend) : List Backend :=
  ms.foldl (fun acc m =>
    if m.backendKey = key ∧ m.snapshot.length > 0 then m.snapshot else acc) init

/-- The declared rule `cr` of load balancer `lb` is matched against the live
rule `r` of the live listener `l`: the document declares `cr` under a listener
of `lb`, the resolver answers for `lb`, and `l` is an `HTTP` or `HTTPS`
listener of the answer with the same port, the same protocol ignoring case,
owning `r` with the same domain and URL. -/
def IsMatch (w : World) (configs : List RuleConfig) (lb : String) (l : Listener)
    (cr : ConfigRule) (r : Rule) : Prop :=
  ∃ cfg ∈ configs, cfg.LoadBalancerID = lb ∧
    ∃ response, w.describeTargets lb = some response ∧
      ∃ cl ∈ cfg.Listeners, l ∈ response ∧
        (l.Protocol = "HTTP" ∨ l.Protocol = "HTTPS") ∧
        cl.Port = l.Port ∧ toLower cl.Protocol = toLower l.Protocol ∧
        cr ∈ cl.Rules ∧ r ∈ l.Rules ∧ cr.Domain = r.Domain ∧ cr.URL = r.URL

/-- The world in which only the load balancer `lb` is resolved, with the
answer `listeners`: what the declarations and live listeners of `lb` alone
produce is what a refresh produces in this world. -/
def soloWorld (rulesFile : RulesFile) (lb : String) (listeners : List Listener) : World :=
  { rulesFile := rulesFile,
    describeTargets := fun id => if id = lb then some listeners else none }

/-! ## Concrete scenarios -/

/-- The target of the scenarios: configured port 8080. -/
def scenarioTarget : ConfigTarget :=
  { LoadBalancerID := "lb-1", ListenerID := "lbl-1", LocationID := "loc-1", Port := 8080 }

/-- The backend key of `scenarioTarget` for deployment `ns/app`. -/
def scenarioKey : String := "ns/app/lb-1/lbl-1/loc-1"

/-- A world whose rule document cannot be read. -/
def silentWorld : World :=
  { rulesFile := RulesFile.unreadable, describeTargets := fun _ => none }

/-- Scenario "new pod": one target for `ns/app`, nothing recorded. -/
def newPodCache : Config :=
  { targets := GoMap.empty.set "ns/app" [scenarioTarget],
    backends := GoMap.empty,
    lastLoad := 0 }

/-- Scenario "port change": `10.0.0.5:9090` is recorded. -/
def portChangeCache : Config :=
  { targets := GoMap.empty.set "ns/app" [scenarioTarget],
    backends := GoMap.empty.set scenarioKey [{ IP := "10.0.0.5", Port := 9090 }],
    lastLoad := 0 }

/-- Scenario "pod deleted with no port change": `10.0.0.5:8080` is recorded. -/
def samePortCache : Config :=
  { targets := GoMap.empty.set "ns/app" [scenarioTarget],
    backends := GoMap.empty.set scenarioKey [{ IP := "10.0.0.5", Port := 8080 }],
    lastLoad := 0 }

/-- The cache made by `LoadConfig` before its first `loadConfig`: empty maps
and the zero time. -/
def emptyCache : Config :=
  { targets := GoMap.empty, backends := GoMap.empty, lastLoad := 0 }

/-- A rule document: `lb-1`, listener 80/http, rule `a.com/` for `ns/app:8080`. -/
def exampleDoc : List RuleConfig :=
  [{ LoadBalancerID := "lb-1",
     Listeners := [{ Port := 80, Protocol := "http",
                     Rules := [{ Domain := "a.com", URL := "/",
                                 Backend := { Namespace := "ns", Deployment := "app",
                                              Port := 8080 } }] }] }]

/-- The live listeners of `lb-1`: one HTTP listener on port 80 whose rule
`a.com/` has one registered target with two private IP addresses. -/
def exampleListeners : List Listener :=
  [{ ListenerID := "lbl-1", Port := 80, Protocol := "HTTP",
     Rules := [{ Domain := "a.com", LocationID := "loc-1", URL := "/",
                 Targets := [{ Port := 8080,
                               PrivateIPAddresses := ["10.0.0.5", "10.0.0.6"] }] }] }]

/-- A world with `exampleDoc` on disk and `exampleListeners` behind `lb-1`. -/
def exampleWorld : World :=
  { rulesFile := RulesFile.parsed exampleDoc,
    describeTargets := fun lb => if lb = "lb-1" then some exampleListeners else none }

/-- A world whose rule document is read but does not parse. -/
def unparsableWorld : World :=
  { rulesFile := RulesFile.unparsable, describeTargets := fun _ => some exampleListeners }

/-- The document `exampleDoc` followed by the same declarations under `lb-2`. -/
def isolationDoc : List RuleConfig :=
  exampleDoc ++
  [{ LoadBalancerID := "lb-2",
     Listeners := [{ Port := 80, Protocol := "http",
                     Rules := [{ Domain := "a.com", URL := "/",
                                 Backend := { Namespace := "ns", Deployment := "app",
                                              Port := 8080 } }] }] }]

/-- The resolver succeeds for `lb-1` and fails for `lb-2`. -/
def isolationWorld : World :=
  { rulesFile := RulesFile.parsed isolationDoc,
    describeTargets := fun lb => if lb = "lb-1" then some exampleListeners else none }

/-- The resolver succeeds for `lb-1` and for `lb-2`. -/
def isolationWorld2 : World :=
  { rulesFile := RulesFile.parsed isolationDoc,
    describeTargets := fun lb =>
      if lb = "lb-2" then some exampleListeners
      else if lb = "lb-1" then some exampleListeners
      else none }

/-- Scenario "IPv6 backend": `fe80::1` is recorded at port 9090, the
configured port is 8080. -/
def ipv6Cache : Config :=
  { targets := GoMap.empty.set "ns/app" [scenarioTarget],
    backends := GoMap.empty.set scenarioKey [{ IP := "fe80::1", Port := 9090 }],
    lastLoad := 0 }

/-- Scenario "mixed backends": `10.0.0.5` and `2001:db8::5` are recorded at
port 9090, the configured port is 8080. -/
def mixedCache : Config :=
  { targets := GoMap.empty.set "ns/app" [scenarioTarget],
    backends := GoMap.empty.set scenarioKey
      [{ IP := "10.0.0.5", Port := 9090 }, { IP := "2001:db8::5", Port := 9090 }],
    lastLoad := 0 }

/-! ## Lemmas on the helpers -/

/-- The key set built by the first loop of `difference` / `intersection`. -/
theorem keySet_foldl (b : List String) (m0 : String → Bool) (k : String) :
    b.foldl (fun m x => fun k => if k = x then true else m k) m0 k
      = (decide (k ∈ b) || m0 k) := by
  induction b generalizing m0 with
  | nil => simp
  | cons y ys ih =>
    simp only [List.foldl_cons, ih, List.mem_cons]
    by_cases h : k = y <;> by_cases h2 : k ∈ ys <;> simp [h, h2]

/-- A loop that appends the elements passing a test is a filter. -/
theorem foldl_append_filter {α : Type} (p : α → Bool) (a acc : List α) :
    a.foldl (fun r x => if p x then r ++ [x] else r) acc = acc ++ a.filter p := by
  induction a generalizing acc with
  | nil => simp
  | cons y ys ih =>
    simp only [List.foldl_cons, ih, List.filter_cons]
    by_cases h : p y <;> simp [h]

theorem difference_eq_filter (a b : List String) :
    difference a b = a.filter (fun x => !decide (x ∈ b)) := by
  unfold difference
  have h := foldl_append_filter (fun x => !decide (x ∈ b)) a []
  simp only [List.nil_append] at h
  rw [← h]
  dsimp only
  congr 1
  funext diff x
  rw [keySet_foldl]
  by_cases hx : x ∈ b <;> simp [hx]

theorem intersection_eq_filter (a b : List String) :
    intersection a b = a.filter (fun x => decide (x ∈ b)) := by
  unfold intersection
  have h := foldl_append_filter (fun x => decide (x ∈ b)) a []
  simp only [List.nil_append] at h
  rw [← h]
  dsimp only
  congr 1
  funext inter x
  rw [keySet_foldl]
  by_cases hx : x ∈ b <;> simp [hx]

/-- A loop that appends one image per element is a map. -/
theorem foldl_append_map {α β : Type} (f : α → β) (a : List α) (acc : List β) :
    a.foldl (fun r x => r ++ [f x]) acc = acc ++ a.map f := by
  induction a generalizing acc with
  | nil => simp
  | cons y ys ih => simp [List.foldl_cons, ih]

/-- A loop whose body keeps a projection of the state keeps it overall. -/
theorem foldl_keeps {σ α β : Type} (proj : σ → β) (f : σ → α → σ)
    (h : ∀ s x, proj (f s x) = proj s) (l : List α) (s : σ) :
    proj (l.foldl f s) = proj s := by
  induction l generalizing s with
  | nil => rfl
  | cons y ys ih => rw [List.foldl_cons, ih, h]

theorem difference_nil_right (a : List String) : difference a [] = a := by
  rw [difference_eq_filter]
  simp

theorem difference_nil_left (b : List String) : difference [] b = [] := rfl

theorem intersection_nil_left (b : List String) : intersection [] b = [] := rfl

theorem intersection_nil_right (a : List String) : intersection a [] = [] := by
  rw [intersection_eq_filter]
  simp

theorem GetBackendIPs_eq_map (c : Config) (key : String) :
    GetBackendIPs c key = (c.backends key).map (fun b => b.IP) := by
  unfold GetBackendIPs
  rw [foldl_append_map]
  simp

theorem GetBackendIPPorts_eq_map (c : Config) (key : String) :
    GetBackendIPPorts c key = (c.backends key).map (fun b => formatIPPort b.IP b.Port) := by
  unfold GetBackendIPPorts
  rw [foldl_append_map]
  simp

theorem GetBackendChangePortIPs_eq (c : Config) (key : String) (p : Int) :
    GetBackendChangePortIPs c key p
      = ((c.backends key).filter (fun b => decide (b.Port ≠ p))).map
          (fun b => formatIPPort b.IP b.Port) := by
  unfold GetBackendChangePortIPs
  generalize c.backends key = bs
  suffices h : ∀ acc : List String,
      bs.foldl (fun ipPorts backend =>
        if backend.Port ≠ p then ipPorts ++ [formatIPPort backend.IP backend.Port]
        else ipPorts) acc
      = acc ++ (bs.filter (fun b => decide (b.Port ≠ p))).map
          (fun b => formatIPPort b.IP b.Port) by
    simpa using h []
  induction bs with
  | nil => simp
  | cons b bs ih =>
    intro acc
    rw [List.foldl_cons, ih]
    by_cases hb : b.Port = p <;> simp [hb, List.filter_cons]

theorem registerTargetsOf_eq_map (t : ConfigTarget) (ips : List String) :
    registerTargetsOf t ips
      = ips.map (fun ip => { LoadBalancerID := t.LoadBalancerID, ListenerID := t.ListenerID,
                             LocationID := t.LocationID, Port := t.Port, EniIP := ip }) := by
  unfold registerTargetsOf
  rw [foldl_append_map]
  simp

/-! ### The calls issued by a refresh -/

theorem processRule_events (lb : String) (l : Listener) (cr : ConfigRule) (st : LoadState)
    (r : Rule) : (processRule lb l cr st r).events = st.events := by
  unfold processRule
  split
  · dsimp only
    split <;> rfl
  · rfl

theorem processConfigRule_events (lb : String) (l : Listener) (st : LoadState)
    (cr : ConfigRule) : (processConfigRule lb l st cr).events = st.events :=
  foldl_keeps LoadState.events _ (processRule_events lb l cr) _ _

theorem processListener_events (lb : String) (cl : ConfigListener) (st : LoadState)
    (l : Listener) : (processListener lb cl st l).events = st.events := by
  unfold processListener
  split
  · exact foldl_keeps LoadState.events _ (processConfigRule_events lb l) _ _
  · rfl

theorem processConfigListener_events (lb : String) (ls : List Listener) (st : LoadState)
    (cl : ConfigListener) : (processConfigListener lb ls st cl).events = st.events :=
  foldl_keeps LoadState.events _ (processListener_events lb cl) _ _

theorem processConfig_events (w : World) (st : LoadState) (cfg : RuleConfig) :
    (processConfig w st cfg).events
      = st.events ++ [Event.DescribeTargets cfg.LoadBalancerID] := by
  unfold processConfig
  dsimp only
  split
  · rfl
  · rw [foldl_keeps LoadState.events _ (processConfigListener_events _ _)]

theorem processConfigs_events (w : World) (configs : List RuleConfig) (st : LoadState) :
    (configs.foldl (processConfig w) st).events
      = st.events ++ configs.map (fun cfg => Event.DescribeTargets cfg.LoadBalancerID) := by
  induction configs generalizing st with
  | nil => simp
  | cons cfg rest ih => simp [List.foldl_cons, ih, processConfig_events]

/-- A refresh issues no register and no deregister call. -/
theorem loadConfig_no_lb_calls (w : World) (now nowEnd : Int) (c : Config) :
    registerCalls (loadConfig w now nowEnd c).events = []
    ∧ deregisterCalls (loadConfig w now nowEnd c).events = [] := by
  unfold loadConfig
  split
  · exact ⟨rfl, rfl⟩
  · split
    · exact ⟨rfl, rfl⟩
    · exact ⟨rfl, rfl⟩
    · dsimp only
      rw [processConfigs_events]
      simp [registerCalls, deregisterCalls, List.filterMap_append, List.filterMap_map]

/-- A lookup issues no register and no deregister call. -/
theorem GetTargets_no_lb_calls (w : World) (nowGet now nowEnd : Int) (c : Config)
    (key : String) :
    registerCalls (GetTargets w nowGet now nowEnd c key).events = []
    ∧ deregisterCalls (GetTargets w nowGet now nowEnd c key).events = [] := by
  unfold GetTargets
  split
  · exact loadConfig_no_lb_calls w now nowEnd c
  · exact ⟨rfl, rfl⟩

theorem registerCalls_append (a b : List Event) :
    registerCalls (a ++ b) = registerCalls a ++ registerCalls b := by
  simp [registerCalls, List.filterMap_append]

theorem deregisterCalls_append (a b : List Event) :
    deregisterCalls (a ++ b) = deregisterCalls a ++ deregisterCalls b := by
  simp [deregisterCalls, List.filterMap_append]

theorem syncTarget_append (c : Config) (ns dn : String) (podIPs : List String)
    (events : List Event) (t : ConfigTarget) :
    syncTarget c ns dn podIPs events t = events ++ targetCalls c ns dn podIPs t := by
  unfold targetCalls syncTarget
  dsimp only
  split <;> split <;> simp

theorem foldl_syncTarget (c : Config) (ns dn : String) (podIPs : List String)
    (ts : List ConfigTarget) (events : List Event) :
    ts.foldl (syncTarget c ns dn podIPs) events
      = events ++ ts.flatMap (targetCalls c ns dn podIPs) := by
  induction ts generalizing events with
  | nil => simp
  | cons t rest ih =>
    rw [List.foldl_cons, ih, syncTarget_append]
    simp [List.flatMap_cons]

/-- The events of a pass: those of the lookup, then those of each target. -/
theorem syncPodToLB_events (w : World) (nowGet now nowEnd : Int) (c : Config)
    (podIPs : List String) (ns dn : String) :
    (syncPodToLB w nowGet now nowEnd c (some podIPs) ns dn).events
      = (GetTargets w nowGet now nowEnd c (targetKey ns dn)).events
        ++ (GetTargets w nowGet now nowEnd c (targetKey ns dn)).targets.flatMap
            (targetCalls (GetTargets w nowGet now nowEnd c (targetKey ns dn)).config
              ns dn podIPs) := by
  unfold syncPodToLB
  dsimp only
  split
  · rename_i h
    rw [List.length_eq_zero] at h
    simp [h]
  · rw [foldl_syncTarget]

theorem targetCalls_eq (c : Config) (ns dn : String) (podIPs : List String)
    (t : ConfigTarget) :
    targetCalls c ns dn podIPs t
      = (if (newIPs c ns dn podIPs t).length > 0 then
          [Event.BatchRegisterTargets t.LoadBalancerID
            (registerTargetsOf t (newIPs c ns dn podIPs t))]
         else [])
        ++ (if (oldIPs c ns dn podIPs t).length > 0 then
          [Event.BatchDeregisterTargets t.LoadBalancerID
            (deregisterTargetsOf t (oldIPs c ns dn podIPs t))]
         else []) := by
  unfold targetCalls syncTarget
  dsimp only
  split <;> split <;> simp

theorem registerCalls_targetCalls (c : Config) (ns dn : String) (podIPs : List String)
    (t : ConfigTarget) :
    registerCalls (targetCalls c ns dn podIPs t)
      = if (newIPs c ns dn podIPs t).length > 0 then
          [(t.LoadBalancerID, registerTargetsOf t (newIPs c ns dn podIPs t))]
        else [] := by
  rw [targetCalls_eq]
  split <;> split <;> simp [registerCalls]

theorem deregisterCalls_targetCalls (c : Config) (ns dn : String) (podIPs : List String)
    (t : ConfigTarget) :
    deregisterCalls (targetCalls c ns dn podIPs t)
      = if (oldIPs c ns dn podIPs t).length > 0 then
          [(t.LoadBalancerID, deregisterTargetsOf t (oldIPs c ns dn podIPs t))]
        else [] := by
  rw [targetCalls_eq]
  split <;> split <;> simp [deregisterCalls]

theorem registerCalls_flatMap (f : ConfigTarget → List Event) (ts : List ConfigTarget) :
    registerCalls (ts.flatMap f) = ts.flatMap (fun t => registerCalls (f t)) := by
  induction ts with
  | nil => rfl
  | cons t rest ih => simp [List.flatMap_cons, registerCalls_append, ih]

theorem deregisterCalls_flatMap (f : ConfigTarget → List Event) (ts : List ConfigTarget) :
    deregisterCalls (ts.flatMap f) = ts.flatMap (fun t => deregisterCalls (f t)) := by
  induction ts with
  | nil => rfl
  | cons t rest ih => simp [List.flatMap_cons, deregisterCalls_append, ih]

/-- The register calls of a pass are those of its targets, in order. -/
theorem registerCalls_syncPodToLB (w : World) (nowGet now nowEnd : Int) (c : Config)
    (podIPs : List String) (ns dn : String) :
    registerCalls (syncPodToLB w nowGet now nowEnd c (some podIPs) ns dn).events
      = (GetTargets w nowGet now nowEnd c (targetKey ns dn)).targets.flatMap
          (fun t => registerCalls
            (targetCalls (GetTargets w nowGet now nowEnd c (targetKey ns dn)).config
              ns dn podIPs t)) := by
  rw [syncPodToLB_events, registerCalls_append, (GetTargets_no_lb_calls _ _ _ _ _ _).1,
    registerCalls_flatMap, List.nil_append]

/-- The deregister calls of a pass are those of its targets, in order. -/
theorem deregisterCalls_syncPodToLB (w : World) (nowGet now nowEnd : Int) (c : Config)
    (podIPs : List String) (ns dn : String) :
    deregisterCalls (syncPodToLB w nowGet now nowEnd c (some podIPs) ns dn).events
      = (GetTargets w nowGet now nowEnd c (targetKey ns dn)).targets.flatMap
          (fun t => deregisterCalls
            (targetCalls (GetTargets w nowGet now nowEnd c (targetKey ns dn)).config
              ns dn podIPs t)) := by
  rw [syncPodToLB_events, deregisterCalls_append, (GetTargets_no_lb_calls _ _ _ _ _ _).2,
    deregisterCalls_flatMap, List.nil_append]

theorem syncPodToLB_config (w : World) (nowGet now nowEnd : Int) (c : Config)
    (podIPs : List String) (ns dn : String) :
    (syncPodToLB w nowGet now nowEnd c (some podIPs) ns dn).config
      = (GetTargets w nowGet now nowEnd c (targetKey ns dn)).config := by
  unfold syncPodToLB
  dsimp only
  split <;> rfl

theorem GetTargets_targets (w : World) (nowGet now nowEnd : Int) (c : Config) (key : String) :
    (GetTargets w nowGet now nowEnd c key).targets
      = (GetTargets w nowGet now nowEnd c key).config.targets key := by
  unfold GetTargets
  split <;> rfl

/-- The calls for a target depend on the cache only through the backends index. -/
theorem targetCalls_congr (c c2 : Config) (h : c.backends = c2.backends) (ns dn : String)
    (podIPs : List String) (t : ConfigTarget) :
    targetCalls c ns dn podIPs t = targetCalls c2 ns dn podIPs t := by
  simp only [targetCalls, syncTarget, newIPs, oldIPs, GetBackendIPs, GetBackendIPPorts,
    GetBackendChangePortIPs, h]

theorem newIPs_of_no_backends (c : Config) (ns dn : String) (podIPs : List String)
    (t : ConfigTarget)
    (h : c.backends (backendKeyOf ns dn t.LoadBalancerID t.ListenerID t.LocationID) = []) :
    newIPs c ns dn podIPs t = podIPs := by
  simp [newIPs, GetBackendIPs, h, difference_nil_right]

theorem oldIPs_of_no_backends (c : Config) (ns dn : String) (podIPs : List String)
    (t : ConfigTarget)
    (h : c.backends (backendKeyOf ns dn t.LoadBalancerID t.ListenerID t.LocationID) = []) :
    oldIPs c ns dn podIPs t = [] := by
  simp [oldIPs, GetBackendIPPorts, h, difference_nil_left, intersection_nil_left]

/-- When every recorded backend is at the configured port the removal set is empty. -/
theorem oldIPs_of_same_port (c : Config) (ns dn : String) (podIPs : List String)
    (t : ConfigTarget)
    (h : ∀ b ∈ c.backends (backendKeyOf ns dn t.LoadBalancerID t.ListenerID t.LocationID),
      b.Port = t.Port) :
    oldIPs c ns dn podIPs t = [] := by
  unfold oldIPs
  dsimp only
  rw [GetBackendChangePortIPs_eq]
  have hf : (c.backends (backendKeyOf ns dn t.LoadBalancerID t.ListenerID t.LocationID)).filter
      (fun b => decide (b.Port ≠ t.Port)) = [] := by
    rw [List.filter_eq_nil_iff]
    intro b hb
    simp [h b hb]
  rw [hf]
  exact intersection_nil_right _

/-! ### Formatting and scanning integers -/

theorem digitChar_isDigit (k : Nat) (hk : k < 10) : IsDigitChar (Nat.digitChar k) := by
  unfold IsDigitChar
  interval_cases k <;> decide

theorem digitChar_value (k : Nat) (hk : k < 10) : (Nat.digitChar k).toNat - '0'.toNat = k := by
  interval_cases k <;> decide

theorem toDigitsCore_isDigit (fuel n : Nat) (ds : List Char) :
    ∀ c ∈ Nat.toDigitsCore 10 fuel n ds, IsDigitChar c ∨ c ∈ ds := by
  induction fuel generalizing n ds with
  | zero => intro c hc; right; simpa [Nat.toDigitsCore] using hc
  | succ fuel ih =>
    intro c hc
    simp only [Nat.toDigitsCore] at hc
    split at hc
    · rcases List.mem_cons.mp hc with h | h
      · left; rw [h]; exact digitChar_isDigit _ (Nat.mod_lt _ (by decide))
      · right; exact h
    · rcases ih _ _ c hc with h | h
      · left; exact h
      · rcases List.mem_cons.mp h with h | h
        · left; rw [h]; exact digitChar_isDigit _ (Nat.mod_lt _ (by decide))
        · right; exact h

theorem toDigits_isDigit (n : Nat) : ∀ c ∈ Nat.toDigits 10 n, IsDigitChar c := by
  intro c hc
  rcases toDigitsCore_isDigit (n + 1) n [] c hc with h | h
  · exact h
  · simp at h

theorem toDigitsCore_ne_nil (fuel n : Nat) (ds : List Char) (hf : 0 < fuel) :
    Nat.toDigitsCore 10 fuel n ds ≠ [] := by
  induction fuel generalizing n ds with
  | zero => omega
  | succ fuel ih =>
    simp only [Nat.toDigitsCore]
    split
    · simp
    · rename_i h
      cases fuel with
      | zero => simp [Nat.toDigitsCore]
      | succ f => exact ih _ _ (Nat.succ_pos f)

theorem toDigits_ne_nil (n : Nat) : Nat.toDigits 10 n ≠ [] :=
  toDigitsCore_ne_nil (n + 1) n [] (Nat.succ_pos n)

theorem toDigitsCore_value (fuel n : Nat) (ds : List Char) (hf : n < fuel) :
    (Nat.toDigitsCore 10 fuel n ds).foldl (fun v c => 10 * v + (c.toNat - '0'.toNat)) 0
      = ds.foldl (fun v c => 10 * v + (c.toNat - '0'.toNat)) n := by
  induction fuel generalizing n ds with
  | zero => omega
  | succ fuel ih =>
    simp only [Nat.toDigitsCore]
    split
    · rename_i h
      rw [List.foldl_cons, digitChar_value _ (Nat.mod_lt _ (by decide))]
      congr 1
      omega
    · rename_i h
      rw [ih _ _ (by omega), List.foldl_cons, digitChar_value _ (Nat.mod_lt _ (by decide))]
      congr 1
      omega

theorem digitsValue_toDigits (n : Nat) : digitsValue (Nat.toDigits 10 n) = n := by
  unfold digitsValue Nat.toDigits
  rw [toDigitsCore_value _ _ _ (Nat.lt_succ_self n)]
  rfl

theorem formatInt_ofNat (m : Nat) : (formatInt (Int.ofNat m)).data = Nat.toDigits 10 m := rfl

theorem formatInt_negSucc (m : Nat) :
    (formatInt (Int.negSucc m)).data = '-' :: Nat.toDigits 10 (m + 1) := rfl

theorem isDigitChar_ne (c : Char) (h : IsDigitChar c) (d : Char)
    (hd : d.toNat < 48 ∨ 57 < d.toNat) : c ≠ d := by
  intro hcd
  subst hcd
  unfold IsDigitChar at h
  omega

theorem formatInt_chars (q : Int) :
    ∀ c ∈ (formatInt q).data, IsDigitChar c ∨ c = '-' := by
  intro c hc
  cases q with
  | ofNat m =>
    rw [formatInt_ofNat] at hc
    exact Or.inl (toDigits_isDigit m c hc)
  | negSucc m =>
    rw [formatInt_negSucc] at hc
    rcases List.mem_cons.mp hc with h | h
    · exact Or.inr h
    · exact Or.inl (toDigits_isDigit _ c h)

/-- The text of an integer contains no colon. -/
theorem colon_not_mem_formatInt (q : Int) : ':' ∉ (formatInt q).data := by
  intro h
  rcases formatInt_chars q _ h with h1 | h1
  · exact isDigitChar_ne _ h1 ':' (by decide) rfl
  · exact absurd h1 (by decide)

theorem readInt_digits (ds : List Char) (hne : ds ≠ []) (hd : ∀ c ∈ ds, IsDigitChar c) :
    readInt ds = (digitsValue ds : Int) := by
  cases ds with
  | nil => exact absurd rfl hne
  | cons c cs =>
    have hc : c ≠ '-' := isDigitChar_ne c (hd c (List.mem_cons_self _ _)) '-' (by decide)
    unfold readInt
    split
    · rename_i r heq
      exact absurd (List.cons.inj heq).1 hc
    · rfl

theorem readInt_formatInt (q : Int) : readInt (formatInt q).data = q := by
  cases q with
  | ofNat m =>
    rw [formatInt_ofNat, readInt_digits _ (toDigits_ne_nil m) (toDigits_isDigit m),
      digitsValue_toDigits]
    rfl
  | negSucc m =>
    rw [formatInt_negSucc]
    show - (digitsValue (Nat.toDigits 10 (m + 1)) : Int) = Int.negSucc m
    rw [digitsValue_toDigits]
    rfl

/-- Distinct integers have distinct texts. -/
theorem formatInt_injective (p q : Int) (h : formatInt p = formatInt q) : p = q := by
  rw [← readInt_formatInt p, ← readInt_formatInt q, h]

theorem formatIPPort_data (ip : String) (q : Int) :
    (formatIPPort ip q).data = ip.data ++ ':' :: (formatInt q).data := by
  simp [formatIPPort, String.data_append]

/-- With the same IP, distinct ports give distinct `IP:port` strings. -/
theorem formatIPPort_port_injective (ip : String) (p q : Int)
    (h : formatIPPort ip p = formatIPPort ip q) : p = q := by
  have h2 := congrArg String.data h
  rw [formatIPPort_data, formatIPPort_data] at h2
  have h3 := List.append_cancel_left h2
  have h4 : (formatInt p).data = (formatInt q).data := (List.cons.inj h3).2
  exact formatInt_injective p q (String.ext h4)

/-! ### Splitting at colons -/

theorem splitOnColon_no_colon (b : List Char) (hb : ':' ∉ b) : splitOnColon b = [b] := by
  induction b with
  | nil => rfl
  | cons c cs ih =>
    have hc : c ≠ ':' := fun h => hb (h ▸ List.mem_cons_self _ _)
    have hcs : ':' ∉ cs := fun h => hb (List.mem_cons_of_mem _ h)
    simp [splitOnColon, hc, ih hcs]

theorem splitOnColon_append (a b : List Char) (ha : ':' ∉ a) :
    splitOnColon (a ++ ':' :: b) = a :: splitOnColon b := by
  induction a with
  | nil => simp [splitOnColon]
  | cons c cs ih =>
    have hc : c ≠ ':' := fun h => ha (h ▸ List.mem_cons_self _ _)
    have hcs : ':' ∉ cs := fun h => ha (List.mem_cons_of_mem _ h)
    simp [splitOnColon, hc, ih hcs]

/-- An `IP:port` string whose IP has no colon splits into the IP and the port text. -/
theorem splitColon_formatIPPort (ip : String) (q : Int) (hip : ':' ∉ ip.data) :
    splitColon (formatIPPort ip q) = [ip, formatInt q] := by
  unfold splitColon
  rw [formatIPPort_data, splitOnColon_append _ _ hip,
    splitOnColon_no_colon _ (colon_not_mem_formatInt q)]
  rfl

/-! ### Scanning back a formatted integer -/

theorem skipSpace_digit (c : Char) (cs : List Char) (h : IsDigitChar c ∨ c = '-') :
    skipSpace (c :: cs) = some (c :: cs) := by
  have h1 : c ≠ '\r' := by
    rcases h with h | h
    · exact isDigitChar_ne c h _ (by decide)
    · rw [h]; decide
  have h2 : c ≠ '\n' := by
    rcases h with h | h
    · exact isDigitChar_ne c h _ (by decide)
    · rw [h]; decide
  have h3 : isSpace c = false := by
    rcases h with h | h
    · unfold IsDigitChar at h
      simp only [isSpace, Bool.or_eq_false_iff, Bool.and_eq_false_iff, beq_eq_false_iff_ne,
        decide_eq_false_iff_not]
      omega
    · rw [h]; decide
  simp [skipSpace, h1, h2, h3]

theorem takeWhile_digits (ds : List Char) (hd : ∀ c ∈ ds, IsDigitChar c) :
    ds.takeWhile isDecimalDigit = ds := by
  rw [List.takeWhile_eq_self_iff]
  intro c hc
  have := hd c hc
  unfold IsDigitChar at this
  simp only [isDecimalDigit, Bool.and_eq_true, decide_eq_true_eq]
  exact this

/-- Scanning the text of a 64-bit integer with `%d` gives the integer back. -/
theorem sscanInt_formatInt (q : Int) (hlo : -(2 : Int) ^ 63 ≤ q) (hhi : q < (2 : Int) ^ 63) :
    sscanInt (formatInt q) = q := by
  cases q with
  | ofNat m =>
    have hne := toDigits_ne_nil m
    have hd := toDigits_isDigit m
    unfold sscanInt
    rw [formatInt_ofNat]
    cases hds : Nat.toDigits 10 m with
    | nil => exact absurd hds hne
    | cons c cs =>
      rw [hds] at hd
      have hc := hd c (List.mem_cons_self _ _)
      rw [skipSpace_digit c cs (Or.inl hc)]
      have hp : c ≠ '+' := isDigitChar_ne c hc '+' (by decide)
      have hm : c ≠ '-' := isDigitChar_ne c hc '-' (by decide)
      have hsigned : (match c :: cs with
          | '+' :: r => (false, r)
          | '-' :: r => (true, r)
          | _ => (false, c :: cs)) = (false, c :: cs) := by
        split
        · rename_i r heq; exact absurd (List.cons.inj heq).1 hp
        · rename_i r heq; exact absurd (List.cons.inj heq).1 hm
        · rfl
      simp only [hsigned, takeWhile_digits _ hd]
      rw [← hds, digitsValue_toDigits]
      have : ¬ (m ≥ 2 ^ 63) := by
        have h2 : (Int.ofNat m) < (2 : Int) ^ 63 := hhi
        have h3 : ((m : Nat) : Int) < ((2 ^ 63 : Nat) : Int) := by
          simpa using h2
        have := Int.ofNat_lt.mp h3
        omega
      simp only [hds] at *
      simp
      intro h
      omega
  | negSucc m =>
    have hne := toDigits_ne_nil (m + 1)
    have hd := toDigits_isDigit (m + 1)
    unfold sscanInt
    rw [formatInt_negSucc, skipSpace_digit '-' _ (Or.inr rfl)]
    simp only [takeWhile_digits _ hd]
    rw [digitsValue_toDigits]
    have : ¬ (m + 1 > 2 ^ 63) := by
      have h2 : -(2 : Int) ^ 63 ≤ Int.negSucc m := hlo
      rw [Int.negSucc_eq] at h2
      have h3 : ((m : Int) + 1) ≤ ((2 ^ 63 : Nat) : Int) := by
        have : ((2 ^ 63 : Nat) : Int) = (2 : Int) ^ 63 := by norm_num
        omega
      have h4 : ((m + 1 : Nat) : Int) ≤ ((2 ^ 63 : Nat) : Int) := by
        simpa using h3
      have := Int.ofNat_le.mp h4
      omega
    simp [hne, Int.negSucc_eq]
    intro h
    omega

/-! ### One recorded backend at another port -/

theorem newIPs_of_recorded (c : Config) (ns dn : String) (t : ConfigTarget) (ip : String)
    (q : Int)
    (h : c.backends (backendKeyOf ns dn t.LoadBalancerID t.ListenerID t.LocationID)
      = [{ IP := ip, Port := q }]) :
    newIPs c ns dn [ip] t = [] := by
  unfold newIPs
  dsimp only
  rw [GetBackendIPs_eq_map, h, difference_eq_filter]
  simp

theorem oldIPs_of_other_port (c : Config) (ns dn : String) (t : ConfigTarget) (ip : String)
    (q : Int)
    (h : c.backends (backendKeyOf ns dn t.LoadBalancerID t.ListenerID t.LocationID)
      = [{ IP := ip, Port := q }])
    (hq : t.Port ≠ q) :
    oldIPs c ns dn [ip] t = [formatIPPort ip q] := by
  unfold oldIPs
  dsimp only
  rw [GetBackendIPPorts_eq_map, GetBackendChangePortIPs_eq, h, difference_eq_filter,
    intersection_eq_filter]
  have hne : formatIPPort ip q ≠ formatIPPort ip t.Port :=
    fun he => hq (formatIPPort_port_injective ip q t.Port he).symm
  have hq2 : q ≠ t.Port := fun he => hq he.symm
  simp [List.filter_cons, hne, hq2]

theorem deregisterTargetsOf_single (t : ConfigTarget) (ip : String) (q : Int)
    (hip : ':' ∉ ip.data) (hlo : -(2 : Int) ^ 63 ≤ q) (hhi : q < (2 : Int) ^ 63) :
    deregisterTargetsOf t [formatIPPort ip q]
      = [{ LoadBalancerID := t.LoadBalancerID, ListenerID := t.ListenerID,
           LocationID := t.LocationID, EniIP := ip, Port := q }] := by
  unfold deregisterTargetsOf
  simp only [List.foldl_cons, List.foldl_nil]
  rw [splitColon_formatIPPort ip q hip]
  simp [sscanInt_formatInt q hlo hhi]

/-! ### The loops of `loadConfig` as one loop over the matches -/

theorem foldl_flatMap_eq {α β σ : Type} (f : σ → β → σ) (g : α → List β) (l : List α)
    (s : σ) : (l.flatMap g).foldl f s = l.foldl (fun s x => (g x).foldl f s) s := by
  induction l generalizing s with
  | nil => rfl
  | cons x xs ih => simp [List.flatMap_cons, List.foldl_append, ih]

theorem processRule_eq (lb : String) (l : Listener) (cr : ConfigRule) (st : LoadState)
    (r : Rule) :
    processRule lb l cr st r
      = (if cr.Domain = r.Domain ∧ cr.URL = r.URL then
          [({ loadBalancerID := lb, listener := l, configRule := cr, rule := r } : RuleMatch)]
         else []).foldl applyMatch st := by
  unfold processRule
  split
  · rfl
  · rfl

theorem processConfigRule_eq (lb : String) (l : Listener) (st : LoadState) (cr : ConfigRule) :
    processConfigRule lb l st cr = (ruleMatches lb l cr).foldl applyMatch st := by
  unfold processConfigRule ruleMatches
  rw [foldl_flatMap_eq]
  congr 1
  funext st r
  exact processRule_eq lb l cr st r

theorem processListener_eq (lb : String) (cl : ConfigListener) (st : LoadState)
    (l : Listener) :
    processListener lb cl st l = (listenerMatches lb cl l).foldl applyMatch st := by
  unfold processListener listenerMatches
  split
  · rw [foldl_flatMap_eq]
    congr 1
    funext st cr
    exact processConfigRule_eq lb l st cr
  · rfl

theorem processConfigListener_eq (lb : String) (ls : List Listener) (st : LoadState)
    (cl : ConfigListener) :
    processConfigListener lb ls st cl = (configListenerMatches lb ls cl).foldl applyMatch st := by
  unfold processConfigListener configListenerMatches
  rw [foldl_flatMap_eq]
  congr 1
  funext st l
  exact processListener_eq lb cl st l

theorem processConfig_eq (w : World) (st : LoadState) (cfg : RuleConfig) :
    processConfig w st cfg
      = (configMatches w cfg).foldl applyMatch
          { st with events := st.events ++ [Event.DescribeTargets cfg.LoadBalancerID] } := by
  unfold processConfig configMatches
  dsimp only
  split
  · rfl
  · rw [foldl_flatMap_eq]
    congr 1
    funext st cl
    exact processConfigListener_eq _ _ st cl

theorem applyMatch_targets (st : LoadState) (m : RuleMatch) (k : String) :
    (applyMatch st m).targets k
      = st.targets k ++ (if m.key = k then [m.target] else []) := by
  unfold applyMatch
  dsimp only
  split
  · by_cases h : m.key = k
    · subst h; simp [GoMap.set]
    · have h2 : ¬ k = m.key := fun e => h e.symm
      simp [GoMap.set, h, h2]
  · by_cases h : m.key = k
    · subst h; simp [GoMap.set]
    · have h2 : ¬ k = m.key := fun e => h e.symm
      simp [GoMap.set, h, h2]

theorem applyMatch_backends (st : LoadState) (m : RuleMatch) (k : String) :
    (applyMatch st m).backends k
      = if m.backendKey = k ∧ m.snapshot.length > 0 then m.snapshot else st.backends k := by
  unfold applyMatch
  dsimp only
  split
  · rename_i hlen
    by_cases h : m.backendKey = k
    · subst h; simp [GoMap.set, hlen]
    · have h2 : ¬ k = m.backendKey := fun e => h e.symm
      simp [GoMap.set, h, h2]
  · rename_i hlen
    simp [hlen]

theorem foldl_applyMatch_targets (ms : List RuleMatch) (st : LoadState) (k : String) :
    (ms.foldl applyMatch st).targets k
      = st.targets k
        ++ (ms.filter (fun m => decide (m.key = k))).map RuleMatch.target := by
  induction ms generalizing st with
  | nil => simp
  | cons m rest ih =>
    rw [List.foldl_cons, ih, applyMatch_targets]
    by_cases h : m.key = k <;> simp [List.filter_cons, h]

theorem foldl_applyMatch_backends (ms : List RuleMatch) (st : LoadState) (k : String) :
    (ms.foldl applyMatch st).backends k = snapshotAt ms k (st.backends k) := by
  induction ms generalizing st with
  | nil => rfl
  | cons m rest ih =>
    rw [List.foldl_cons, ih, applyMatch_backends]
    rfl

theorem snapshotAt_append (a b : List RuleMatch) (k : String) (init : List Backend) :
    snapshotAt (a ++ b) k init = snapshotAt b k (snapshotAt a k init) := by
  unfold snapshotAt
  rw [List.foldl_append]

theorem processConfigs_targets (w : World) (configs : List RuleConfig) (st : LoadState)
    (k : String) :
    (configs.foldl (processConfig w) st).targets k
      = st.targets k
        ++ ((allMatches w configs).filter (fun m => decide (m.key = k))).map
            RuleMatch.target := by
  induction configs generalizing st with
  | nil => simp [allMatches]
  | cons cfg rest ih =>
    rw [List.foldl_cons, ih, processConfig_eq, foldl_applyMatch_targets]
    simp [allMatches, List.flatMap_cons, List.filter_append]

theorem processConfigs_backends (w : World) (configs : List RuleConfig) (st : LoadState)
    (k : String) :
    (configs.foldl (processConfig w) st).backends k
      = snapshotAt (allMatches w configs) k (st.backends k) := by
  induction configs generalizing st with
  | nil => rfl
  | cons cfg rest ih =>
    rw [List.foldl_cons, ih, processConfig_eq, foldl_applyMatch_backends]
    simp only [allMatches, List.flatMap_cons]
    rw [snapshotAt_append]

/-- The indices after a refresh that parsed the document `configs`. -/
theorem loadConfig_parsed (w : World) (now nowEnd : Int) (c : Config)
    (configs : List RuleConfig) (hstale : ¬ since now c.lastLoad < ttl)
    (hdoc : w.rulesFile = RulesFile.parsed configs) :
    (loadConfig w now nowEnd c).err = none
    ∧ (∀ k, (loadConfig w now nowEnd c).config.targets k
        = ((allMatches w configs).filter (fun m => decide (m.key = k))).map RuleMatch.target)
    ∧ (∀ k, (loadConfig w now nowEnd c).config.backends k
        = snapshotAt (allMatches w configs) k [])
    ∧ (loadConfig w now nowEnd c).config.lastLoad = nowEnd
    ∧ (loadConfig w now nowEnd c).events
        = Event.ReadFile
          :: configs.map (fun cfg => Event.DescribeTargets cfg.LoadBalancerID) := by
  unfold loadConfig
  rw [if_neg hstale, hdoc]
  dsimp only
  refine ⟨rfl, ?_, ?_, rfl, ?_⟩
  · intro k
    rw [processConfigs_targets]
    simp [GoMap.empty]
  · intro k
    rw [processConfigs_backends]
    rfl
  · rw [processConfigs_events]
    rfl

theorem getListeners_eq (w : World) (lb : String) :
    getListeners w lb
      = (w.describeTargets lb).map
          (fun response => response.filter
            (fun l => decide (l.Protocol = "HTTP" ∨ l.Protocol = "HTTPS"))) := by
  unfold getListeners
  cases w.describeTargets lb with
  | none => rfl
  | some response =>
    simp only [Option.map_some']
    congr 1
    have h := foldl_append_filter
      (fun l : Listener => decide (l.Protocol = "HTTP" ∨ l.Protocol = "HTTPS")) response []
    simp only [List.nil_append] at h
    rw [← h]
    congr 1
    funext ls l
    by_cases hl : l.Protocol = "HTTP" ∨ l.Protocol = "HTTPS" <;> simp [hl]

/-- The matches of a refresh are the declared rules matched against live rules. -/
theorem mem_allMatches (w : World) (configs : List RuleConfig) (m : RuleMatch) :
    m ∈ allMatches w configs
      ↔ IsMatch w configs m.loadBalancerID m.listener m.configRule m.rule := by
  unfold allMatches IsMatch
  simp only [List.mem_flatMap]
  constructor
  · rintro ⟨cfg, hcfg, hm⟩
    unfold configMatches at hm
    rw [getListeners_eq] at hm
    cases hd : w.describeTargets cfg.LoadBalancerID with
    | none => simp [hd] at hm
    | some response =>
      simp only [hd, Option.map_some', List.mem_flatMap, configListenerMatches] at hm
      obtain ⟨cl, hcl, l, hl, hm⟩ := hm
      unfold listenerMatches at hm
      split at hm
      · rename_i hpp
        simp only [List.mem_flatMap, ruleMatches] at hm
        obtain ⟨cr, hcr, r, hr, hm⟩ := hm
        split at hm
        · rename_i hdu
          simp only [List.mem_singleton] at hm
          subst hm
          rw [List.mem_filter] at hl
          refine ⟨cfg, hcfg, rfl, response, hd, cl, hcl, hl.1, ?_, hpp.1, hpp.2, hcr, hr,
            hdu.1, hdu.2⟩
          simpa using hl.2
        · simp at hm
      · simp at hm
  · rintro ⟨cfg, hcfg, hlb, response, hd, cl, hcl, hl, hproto, hport, hlow, hcr, hr, hdom, hurl⟩
    refine ⟨cfg, hcfg, ?_⟩
    unfold configMatches
    rw [getListeners_eq, hlb, hd]
    simp only [Option.map_some', List.mem_flatMap, configListenerMatches]
    refine ⟨cl, hcl, m.listener, ?_, ?_⟩
    · rw [List.mem_filter]
      exact ⟨hl, by simpa using hproto⟩
    · unfold listenerMatches
      rw [if_pos ⟨hport, hlow⟩]
      simp only [List.mem_flatMap, ruleMatches]
      refine ⟨m.configRule, hcr, m.rule, hr, ?_⟩
      rw [if_pos ⟨hdom, hurl⟩]
      simp

/-! ### The last write under a composite key -/

theorem snapshotAt_of_no_write (ms : List RuleMatch) (k : String) (init : List Backend)
    (h : ∀ m ∈ ms, m.backendKey = k → m.snapshot.length = 0) :
    snapshotAt ms k init = init := by
  induction ms generalizing init with
  | nil => rfl
  | cons m rest ih =>
    have hm : ¬ (m.backendKey = k ∧ m.snapshot.length > 0) := by
      rintro ⟨h1, h2⟩
      have := h m (List.mem_cons_self _ _) h1
      omega
    have hstep : snapshotAt (m :: rest) k init = snapshotAt rest k init := by
      simp only [snapshotAt, List.foldl_cons, if_neg hm]
    rw [hstep]
    exact ih init (fun m2 h2 => h m2 (List.mem_cons_of_mem _ h2))

theorem snapshotAt_of_same_write (ms : List RuleMatch) (k : String) (v init : List Backend)
    (hv : v.length > 0)
    (h : ∀ m ∈ ms, m.backendKey = k → m.snapshot = v)
    (hex : init = v ∨ ∃ m ∈ ms, m.backendKey = k) :
    snapshotAt ms k init = v := by
  induction ms generalizing init with
  | nil =>
    rcases hex with h1 | ⟨m, hm, _⟩
    · exact h1
    · simp at hm
  | cons m rest ih =>
    have hrest : ∀ m2 ∈ rest, m2.backendKey = k → m2.snapshot = v :=
      fun m2 h2 => h m2 (List.mem_cons_of_mem _ h2)
    by_cases hm : m.backendKey = k
    · have hs := h m (List.mem_cons_self _ _) hm
      have hc : m.backendKey = k ∧ m.snapshot.length > 0 := ⟨hm, by rw [hs]; exact hv⟩
      have hstep : snapshotAt (m :: rest) k init = snapshotAt rest k m.snapshot := by
        simp only [snapshotAt, List.foldl_cons, if_pos hc]
      rw [hstep]
      exact ih _ hrest (Or.inl hs)
    · have hc : ¬ (m.backendKey = k ∧ m.snapshot.length > 0) := fun hc => hm hc.1
      have hstep : snapshotAt (m :: rest) k init = snapshotAt rest k init := by
        simp only [snapshotAt, List.foldl_cons, if_neg hc]
      rw [hstep]
      refine ih _ hrest ?_
      rcases hex with h1 | ⟨m2, hm2, hk2⟩
      · exact Or.inl h1
      · rcases List.mem_cons.mp hm2 with h3 | h3
        · exact absurd (h3 ▸ hk2) hm
        · exact Or.inr ⟨m2, h3, hk2⟩

theorem snapshotAt_filter (ms : List RuleMatch) (p : RuleMatch → Bool) (k : String)
    (init : List Backend) (h : ∀ m ∈ ms, p m = false → m.backendKey ≠ k) :
    snapshotAt (ms.filter p) k init = snapshotAt ms k init := by
  induction ms generalizing init with
  | nil => rfl
  | cons m rest ih =>
    have hrest : ∀ m2 ∈ rest, p m2 = false → m2.backendKey ≠ k :=
      fun m2 h2 => h m2 (List.mem_cons_of_mem _ h2)
    by_cases hp : p m = true
    · rw [List.filter_cons_of_pos hp]
      simp only [snapshotAt, List.foldl_cons]
      exact ih _ hrest
    · rw [List.filter_cons_of_neg hp]
      have hk := h m (List.mem_cons_self _ _) (by simpa using hp)
      have hc : ¬ (m.backendKey = k ∧ m.snapshot.length > 0) := fun hc => hk hc.1
      have hstep : snapshotAt (m :: rest) k init = snapshotAt rest k init := by
        simp only [snapshotAt, List.foldl_cons, if_neg hc]
      rw [hstep]
      exact ih _ hrest

/-- The backend list built from the registered targets of a live rule: for
each target with a private IP address, its first address and its port. -/
theorem mem_ruleBackends (targets : List Target) (b : Backend) :
    b ∈ ruleBackends targets
      ↔ ∃ tg ∈ targets, ∃ ip rest, tg.PrivateIPAddresses = ip :: rest
          ∧ b = { IP := ip, Port := tg.Port } := by
  unfold ruleBackends
  suffices h : ∀ acc : List Backend,
      b ∈ targets.foldl (fun backends target =>
          match target.PrivateIPAddresses with
          | ip :: _ => backends ++ [{ IP := ip, Port := target.Port }]
          | [] => backends) acc
        ↔ b ∈ acc ∨ ∃ tg ∈ targets, ∃ ip rest, tg.PrivateIPAddresses = ip :: rest
            ∧ b = { IP := ip, Port := tg.Port } by
    simpa using h []
  induction targets with
  | nil => intro acc; simp
  | cons tg rest ih =>
    intro acc
    rw [List.foldl_cons, ih]
    cases hp : tg.PrivateIPAddresses with
    | nil => simp [hp]
    | cons ip more =>
      simp only [List.mem_append, List.mem_singleton, List.mem_cons, exists_eq_or_imp, hp,
        List.cons.injEq, List.not_mem_nil, or_false]
      constructor
      · rintro (h | h)
        · rcases h with h | h
          · exact Or.inl h
          · exact Or.inr (Or.inl ⟨ip, more, ⟨rfl, rfl⟩, h⟩)
        · exact Or.inr (Or.inr h)
      · rintro (h | h | h)
        · exact Or.inl (Or.inl h)
        · obtain ⟨ip2, more2, ⟨h1, _⟩, h3⟩ := h
          subst h1
          exact Or.inl (Or.inr h3)
        · exact Or.inr h

/-! ### A failing resolver call -/

theorem configMatches_loadBalancerID (w : World) (cfg : RuleConfig) (m : RuleMatch)
    (hm : m ∈ configMatches w cfg) : m.loadBalancerID = cfg.LoadBalancerID := by
  unfold configMatches at hm
  split at hm
  · simp at hm
  · simp only [List.mem_flatMap, configListenerMatches] at hm
    obtain ⟨cl, _, l, _, hm⟩ := hm
    unfold listenerMatches at hm
    split at hm
    · simp only [List.mem_flatMap, ruleMatches] at hm
      obtain ⟨cr, _, r, _, hm⟩ := hm
      split at hm
      · simp only [List.mem_singleton] at hm
        rw [hm]
      · simp at hm
    · simp at hm

theorem configMatches_congr (w w2 : World) (cfg : RuleConfig)
    (h : w2.describeTargets cfg.LoadBalancerID = w.describeTargets cfg.LoadBalancerID) :
    configMatches w2 cfg = configMatches w cfg := by
  unfold configMatches
  rw [getListeners_eq, getListeners_eq, h]

theorem configMatches_of_failure (w : World) (cfg : RuleConfig)
    (h : w.describeTargets cfg.LoadBalancerID = none) : configMatches w cfg = [] := by
  unfold configMatches
  rw [getListeners_eq, h]
  rfl

/-- When the resolver fails for `X`, the matches are those of any world that
agrees elsewhere, less the matches of `X`. -/
theorem allMatches_of_failure (w w2 : World) (configs : List RuleConfig) (X : String)
    (hX : w.describeTargets X = none)
    (hsame : ∀ lb, lb ≠ X → w2.describeTargets lb = w.describeTargets lb) :
    allMatches w configs
      = (allMatches w2 configs).filter (fun m => decide (m.loadBalancerID ≠ X)) := by
  unfold allMatches
  induction configs with
  | nil => rfl
  | cons cfg rest ih =>
    rw [List.flatMap_cons, List.flatMap_cons, List.filter_append, ih]
    congr 1
    by_cases hc : cfg.LoadBalancerID = X
    · rw [configMatches_of_failure w cfg (by rw [hc]; exact hX)]
      symm
      rw [List.filter_eq_nil_iff]
      intro m hm
      simp [configMatches_loadBalancerID w2 cfg m hm, hc]
    · rw [← configMatches_congr w w2 cfg (hsame _ hc)]
      symm
      rw [List.filter_eq_self]
      intro m hm
      simp [configMatches_loadBalancerID w2 cfg m hm, hc]

/-! ### The `IP:port` text determines the IP and the port -/

/-- The last colon of a text splits it in one way only. -/
theorem append_colon_cancel (a b x y : List Char) (hx : ':' ∉ x) (hy : ':' ∉ y)
    (h : a ++ ':' :: x = b ++ ':' :: y) : a = b ∧ x = y := by
  induction a generalizing b with
  | nil =>
    cases b with
    | nil => exact ⟨rfl, (List.cons.inj h).2⟩
    | cons d ds =>
      have h2 := (List.cons.inj h).2
      exact absurd (h2 ▸ (List.mem_append_right ds (List.mem_cons_self ':' y))) hx
  | cons c cs ih =>
    cases b with
    | nil =>
      have h2 := (List.cons.inj h).2
      exact absurd (h2 ▸ (List.mem_append_right cs (List.mem_cons_self ':' x))) hy
    | cons d ds =>
      have h1 := (List.cons.inj h).1
      have h2 := (List.cons.inj h).2
      obtain ⟨h3, h4⟩ := ih ds h2
      exact ⟨by rw [h1, h3], h4⟩

/-- Equal `IP:port` strings come from equal IPs and equal ports. -/
theorem formatIPPort_injective (ip ip2 : String) (q q2 : Int)
    (h : formatIPPort ip q = formatIPPort ip2 q2) : ip = ip2 ∧ q = q2 := by
  have h2 := congrArg String.data h
  rw [formatIPPort_data, formatIPPort_data] at h2
  obtain ⟨h3, h4⟩ := append_colon_cancel _ _ _ _ (colon_not_mem_formatInt q)
    (colon_not_mem_formatInt q2) h2
  exact ⟨String.ext h3, formatInt_injective q q2 (String.ext h4)⟩

/-- A filter of images is the image of a filter. -/
theorem filter_map_eq {α β : Type} (f : α → β) (p : β → Bool) (l : List α) :
    (l.map f).filter p = (l.filter (fun a => p (f a))).map f := by
  induction l with
  | nil => rfl
  | cons a rest ih =>
    by_cases h : p (f a) = true <;> simp [List.filter_cons, h, ih]

/-- The removal set of `syncPodToLB` is the list of recorded backends at
another port than the configured one, whatever pods were observed. -/
theorem oldIPs_eq_changePort (c : Config) (ns dn : String) (podIPs : List String)
    (t : ConfigTarget) :
    oldIPs c ns dn podIPs t
      = GetBackendChangePortIPs c
          (backendKeyOf ns dn t.LoadBalancerID t.ListenerID t.LocationID) t.Port := by
  unfold oldIPs
  dsimp only
  rw [GetBackendIPPorts_eq_map, GetBackendChangePortIPs_eq, difference_eq_filter,
    intersection_eq_filter, List.filter_filter, filter_map_eq]
  congr 1
  apply List.filter_congr
  intro b hb
  by_cases hp : b.Port = t.Port
  · have hnot : formatIPPort b.IP b.Port
        ∉ List.map (fun b => formatIPPort b.IP b.Port)
            (List.filter (fun b => decide (b.Port ≠ t.Port))
              (c.backends (backendKeyOf ns dn t.LoadBalancerID t.ListenerID t.LocationID))) := by
      intro hmem
      obtain ⟨b2, hb2, heq⟩ := List.mem_map.mp hmem
      have hport := (formatIPPort_injective _ _ _ _ heq).2
      have hne : b2.Port ≠ t.Port := by simpa using (List.mem_filter.mp hb2).2
      exact hne (hport.trans hp)
    simp only [decide_eq_false hnot]
    simp [hp]
  · have hin : formatIPPort b.IP b.Port
        ∈ List.map (fun b => formatIPPort b.IP b.Port)
            (List.filter (fun b => decide (b.Port ≠ t.Port))
              (c.backends (backendKeyOf ns dn t.LoadBalancerID t.ListenerID t.LocationID))) :=
      List.mem_map.mpr ⟨b, List.mem_filter.mpr ⟨hb, by simpa using hp⟩, rfl⟩
    have hpod : formatIPPort b.IP b.Port
        ∉ List.map (fun ip => formatIPPort ip t.Port) podIPs := by
      intro hmem
      obtain ⟨ip, _, heq⟩ := List.mem_map.mp hmem
      exact hp (formatIPPort_injective _ _ _ _ heq).2.symm
    simp only [decide_eq_true hin, decide_eq_false hpod]
    simp [hp]

/-! ### The entries of a deregister call -/

theorem deregisterTargetsOf_eq_filterMap (t : ConfigTarget) (xs : List String) :
    deregisterTargetsOf t xs = xs.filterMap (deregisterEntry t) := by
  unfold deregisterTargetsOf
  suffices h : ∀ acc : List DeregisterTarget,
      xs.foldl (fun deregisterTargets ipPort =>
        match splitColon ipPort with
        | [part0, part1] =>
          deregisterTargets ++ [{ LoadBalancerID := t.LoadBalancerID,
                                  ListenerID := t.ListenerID,
                                  LocationID := t.LocationID,
                                  EniIP := part0,
                                  Port := sscanInt part1 }]
        | _ => deregisterTargets) acc
      = acc ++ xs.filterMap (deregisterEntry t) by
    simpa using h []
  induction xs with
  | nil => intro acc; simp
  | cons x rest ih =>
    intro acc
    rw [List.foldl_cons, ih]
    unfold deregisterEntry
    rw [List.filterMap_cons]
    split <;> simp_all

theorem splitOnColon_length (s : List Char) :
    (splitOnColon s).length = s.count ':' + 1 := by
  induction s with
  | nil => rfl
  | cons c cs ih =>
    by_cases hc : c = ':'
    · subst hc
      simp [splitOnColon, ih]
    · have hc2 : ¬ (c == ':') = true := by simpa using hc
      cases hs : splitOnColon cs with
      | nil => rw [hs] at ih; simp at ih
      | cons p ps =>
        rw [hs] at ih
        simp only [splitOnColon, hc, if_false, hs, List.length_cons] at ih ⊢
        rw [List.count_cons, if_neg hc2]
        omega

/-- An `IP:port` string whose IP contains a colon yields no entry. -/
theorem deregisterEntry_of_colon (t : ConfigTarget) (ip : String) (q : Int)
    (hip : ':' ∈ ip.data) : deregisterEntry t (formatIPPort ip q) = none := by
  have hlen : (splitColon (formatIPPort ip q)).length ≠ 2 := by
    unfold splitColon
    rw [List.length_map, splitOnColon_length, formatIPPort_data, List.count_append,
      List.count_cons_self]
    have := List.count_pos_iff.mpr hip
    omega
  unfold deregisterEntry
  split
  · rename_i p0 p1 heq
    rw [heq] at hlen
    exact absurd rfl hlen
  · rfl

/-- An `IP:port` string whose IP contains no colon yields the entry of its backend. -/
theorem deregisterEntry_of_no_colon (t : ConfigTarget) (ip : String) (q : Int)
    (hip : ':' ∉ ip.data) :
    deregisterEntry t (formatIPPort ip q) = some (backendEntry t { IP := ip, Port := q }) := by
  unfold deregisterEntry
  rw [splitColon_formatIPPort ip q hip]
  rfl

/-- The entries built from the texts of a list of backends: one per backend
whose IP contains no colon. -/
theorem deregisterTargetsOf_backends (t : ConfigTarget) (bs : List Backend) :
    deregisterTargetsOf t (bs.map (fun b => formatIPPort b.IP b.Port))
      = (bs.filter (fun b => decide (':' ∉ b.IP.data))).map (backendEntry t) := by
  rw [deregisterTargetsOf_eq_filterMap]
  induction bs with
  | nil => rfl
  | cons b rest ih =>
    rw [List.map_cons, List.filterMap_cons]
    by_cases hb : ':' ∈ b.IP.data
    · rw [deregisterEntry_of_colon t b.IP b.Port hb, ih]
      simp [List.filter_cons, hb]
    · rw [deregisterEntry_of_no_colon t b.IP b.Port hb, ih]
      simp [List.filter_cons, hb]

/-- The entries of the deregister call for a target: one per recorded backend
at another port than the configured one whose IP contains no colon. -/
theorem deregisterTargetsOf_oldIPs (c : Config) (ns dn : String) (podIPs : List String)
    (t : ConfigTarget) :
    deregisterTargetsOf t (oldIPs c ns dn podIPs t)
      = (((c.backends (backendKeyOf ns dn t.LoadBalancerID t.ListenerID t.LocationID)).filter
            (fun b => decide (b.Port ≠ t.Port))).filter
          (fun b => decide (':' ∉ b.IP.data))).map (backendEntry t) := by
  rw [oldIPs_eq_changePort, GetBackendChangePortIPs_eq, deregisterTargetsOf_backends]

/-- A recorded backend has its text in the removal set iff its port is not the
configured one. -/
theorem mem_oldIPs_iff (c : Config) (ns dn : String) (podIPs : List String)
    (t : ConfigTarget) (b : Backend)
    (hb : b ∈ c.backends (backendKeyOf ns dn t.LoadBalancerID t.ListenerID t.LocationID)) :
    formatIPPort b.IP b.Port ∈ oldIPs c ns dn podIPs t ↔ b.Port ≠ t.Port := by
  rw [oldIPs_eq_changePort, GetBackendChangePortIPs_eq]
  constructor
  · intro h
    obtain ⟨b2, hb2, heq⟩ := List.mem_map.mp h
    have hne : b2.Port ≠ t.Port := by simpa using (List.mem_filter.mp hb2).2
    rw [← (formatIPPort_injective _ _ _ _ heq).2]
    exact hne
  · intro h
    exact List.mem_map.mpr ⟨b, List.mem_filter.mpr ⟨hb, by simpa using h⟩, rfl⟩

/-- The deregister call of a target with a non-empty removal set is among the
deregister calls of the pass. -/
theorem deregisterCall_mem_pass (w : World) (nowGet now nowEnd : Int) (c : Config)
    (podIPs : List String) (ns dn : String) (t : ConfigTarget)
    (ht : t ∈ (GetTargets w nowGet now nowEnd c (targetKey ns dn)).targets)
    (hne : oldIPs (GetTargets w nowGet now nowEnd c (targetKey ns dn)).config ns dn podIPs t
      ≠ []) :
    (t.LoadBalancerID,
      deregisterTargetsOf t
        (oldIPs (GetTargets w nowGet now nowEnd c (targetKey ns dn)).config ns dn podIPs t))
      ∈ deregisterCalls (syncPodToLB w nowGet now nowEnd c (some podIPs) ns dn).events := by
  rw [deregisterCalls_syncPodToLB, List.mem_flatMap]
  refine ⟨t, ht, ?_⟩
  rw [deregisterCalls_targetCalls, if_pos (List.length_pos.mpr hne)]
  exact List.mem_singleton.mpr rfl

theorem backendEntry_port (t : ConfigTarget) (b : Backend)
    (hlo : -(2 : Int) ^ 63 ≤ b.Port) (hhi : b.Port < (2 : Int) ^ 63) :
    backendEntry t b
      = { LoadBalancerID := t.LoadBalancerID, ListenerID := t.ListenerID,
          LocationID := t.LocationID, EniIP := b.IP, Port := b.Port } := by
  unfold backendEntry
  rw [sscanInt_formatInt b.Port hlo hhi]

/-! ### Composite keys of identifiers without `/` -/

/-- The last separator of a text splits it in one way only. -/
theorem append_sep_cancel (sep : Char) (a b x y : List Char) (hx : sep ∉ x) (hy : sep ∉ y)
    (h : a ++ sep :: x = b ++ sep :: y) : a = b ∧ x = y := by
  induction a generalizing b with
  | nil =>
    cases b with
    | nil => exact ⟨rfl, (List.cons.inj h).2⟩
    | cons d ds =>
      have h2 := (List.cons.inj h).2
      exact absurd (h2 ▸ (List.mem_append_right ds (List.mem_cons_self sep y))) hx
  | cons c cs ih =>
    cases b with
    | nil =>
      have h2 := (List.cons.inj h).2
      exact absurd (h2 ▸ (List.mem_append_right cs (List.mem_cons_self sep x))) hy
    | cons d ds =>
      have h1 := (List.cons.inj h).1
      have h2 := (List.cons.inj h).2
      obtain ⟨h3, h4⟩ := ih ds h2
      exact ⟨by rw [h1, h3], h4⟩

theorem backendKeyOf_data (ns dep lb lis loc : String) :
    (backendKeyOf ns dep lb lis loc).data
      = ((ns.data ++ '/' :: dep.data ++ '/' :: lb.data) ++ '/' :: lis.data)
          ++ '/' :: loc.data := by
  simp [backendKeyOf, String.data_append]

/-- A composite key determines the load-balancer, listener and location ids
in it when these contain no `/`. -/
theorem backendKeyOf_ids_injective (ns dep lb lis loc ns2 dep2 lb2 lis2 loc2 : String)
    (hlb : '/' ∉ lb.data) (hlis : '/' ∉ lis.data) (hloc : '/' ∉ loc.data)
    (hlb2 : '/' ∉ lb2.data) (hlis2 : '/' ∉ lis2.data) (hloc2 : '/' ∉ loc2.data)
    (h : backendKeyOf ns dep lb lis loc = backendKeyOf ns2 dep2 lb2 lis2 loc2) :
    lb = lb2 ∧ lis = lis2 ∧ loc = loc2 := by
  have h0 := congrArg String.data h
  rw [backendKeyOf_data, backendKeyOf_data] at h0
  obtain ⟨h1, e1⟩ := append_sep_cancel '/' _ _ _ _ hloc hloc2 h0
  obtain ⟨h2, e2⟩ := append_sep_cancel '/' _ _ _ _ hlis hlis2 h1
  have h3 : (ns.data ++ '/' :: dep.data) ++ '/' :: lb.data
      = (ns2.data ++ '/' :: dep2.data) ++ '/' :: lb2.data := by
    simpa using h2
  obtain ⟨_, e3⟩ := append_sep_cancel '/' _ _ _ _ hlb hlb2 h3
  exact ⟨String.ext e3, String.ext e2, String.ext e1⟩

/-- The ids of a match are the id of a declared load balancer and ids of a
live listener and rule in its answer. -/
theorem match_ids_no_slash (w : World) (configs : List RuleConfig) (m : RuleMatch)
    (hm : m ∈ allMatches w configs)
    (hlbids : ∀ cfg ∈ configs, '/' ∉ cfg.LoadBalancerID.data)
    (hliveids : ∀ cfg ∈ configs, ∀ response,
      w.describeTargets cfg.LoadBalancerID = some response →
      ∀ l ∈ response, '/' ∉ l.ListenerID.data ∧ ∀ r ∈ l.Rules, '/' ∉ r.LocationID.data) :
    '/' ∉ m.loadBalancerID.data ∧ '/' ∉ m.listener.ListenerID.data
      ∧ '/' ∉ m.rule.LocationID.data := by
  obtain ⟨cfg, hcfg, hlb, response, hd, cl, _, hl, _, _, _, _, hr, _, _⟩ :=
    (mem_allMatches w configs m).mp hm
  have hlive := hliveids cfg hcfg response (by rw [hlb]; exact hd) m.listener hl
  exact ⟨hlb ▸ hlbids cfg hcfg, hlive.1, hlive.2 m.rule hr⟩

/-- Matches with the same composite key have the same load-balancer, listener
and location ids, when ids contain no `/`. -/
theorem backendKey_ids_eq (m m2 : RuleMatch)
    (h1 : '/' ∉ m.loadBalancerID.data ∧ '/' ∉ m.listener.ListenerID.data
      ∧ '/' ∉ m.rule.LocationID.data)
    (h2 : '/' ∉ m2.loadBalancerID.data ∧ '/' ∉ m2.listener.ListenerID.data
      ∧ '/' ∉ m2.rule.LocationID.data)
    (h : m.backendKey = m2.backendKey) :
    m.loadBalancerID = m2.loadBalancerID ∧ m.listener.ListenerID = m2.listener.ListenerID
      ∧ m.rule.LocationID = m2.rule.LocationID :=
  backendKeyOf_ids_injective _ _ _ _ _ _ _ _ _ _ h1.1 h1.2.1 h1.2.2 h2.1 h2.2.1 h2.2.2 h

/-- The matches of a world that resolves only the load balancers passing
`p`, with the answers of `w2`, are the matches of `w2` under those. -/
theorem allMatches_restrict (w w2 : World) (configs : List RuleConfig) (p : String → Bool)
    (hfail : ∀ lb, p lb = false → w.describeTargets lb = none)
    (hsame : ∀ lb, p lb = true → w.describeTargets lb = w2.describeTargets lb) :
    allMatches w configs
      = (allMatches w2 configs).filter (fun m => p m.loadBalancerID) := by
  unfold allMatches
  induction configs with
  | nil => rfl
  | cons cfg rest ih =>
    rw [List.flatMap_cons, List.flatMap_cons, List.filter_append, ih]
    congr 1
    by_cases hc : p cfg.LoadBalancerID = true
    · rw [configMatches_congr w2 w cfg (hsame _ hc)]
      symm
      rw [List.filter_eq_self]
      intro m hm
      rw [configMatches_loadBalancerID w2 cfg m hm]
      exact hc
    · have hc2 : p cfg.LoadBalancerID = false := by simpa using hc
      rw [configMatches_of_failure w cfg (hfail _ hc2)]
      symm
      rw [List.filter_eq_nil_iff]
      intro m hm
      rw [configMatches_loadBalancerID w2 cfg m hm]
      exact hc

/-! ## Theorems -/

/-- C1: `difference A B` is exactly the elements of `A` that do not occur in
`B`, in their original order in `A`; an IP is in the result iff it is in `A`
and not in `B`; and when `A` has no repeated element the result has none. -/
theorem difference_spec (A B : List String) :
    difference A B = A.filter (fun x => !decide (x ∈ B))
    ∧ List.Sublist (difference A B) A
    ∧ (∀ x, x ∈ difference A B ↔ x ∈ A ∧ x ∉ B)
    ∧ (A.Nodup → (difference A B).Nodup) := by
  rw [difference_eq_filter]
  refine ⟨rfl, List.filter_sublist A, ?_, ?_⟩
  · intro x
    simp [List.mem_filter]
  · intro h
    exact h.filter _

/-- C1 witness: the first case of `TestDifference`. -/
theorem difference_spec_witness :
    ["1", "2", "3"].Nodup
    ∧ difference ["1", "2", "3"] ["2", "3", "4"] = ["1"]
    ∧ (difference ["1", "2", "3"] ["2", "3", "4"]).Nodup :=
  ⟨by decide, by decide,
   (difference_spec ["1", "2", "3"] ["2", "3", "4"]).2.2.2 (by decide)⟩

/-- C2: new-pod scenario. For a deployment with one ConfigTarget `t` at
configured port `p` whose recorded backend snapshot is empty, and every
non-empty duplicate-free list of observed pod IPs, one pass of `syncPodToLB`
issues exactly one register call, whose entries are one per observed IP, each
with that IP, port `p` and the load-balancer, listener and location ids of
`t`, and issues zero deregister calls. The recorded state is the one the
pass works on, that is the cache after the lookup of the targets. -/
theorem newPod_one_register_no_deregister (w : World) (nowGet now nowEnd : Int) (c : Config)
    (podIPs : List String) (ns dn : String) (t : ConfigTarget) (p : Int)
    (htargets : (GetTargets w nowGet now nowEnd c (targetKey ns dn)).targets = [t])
    (hport : t.Port = p)
    (hbackends : (GetTargets w nowGet now nowEnd c (targetKey ns dn)).config.backends
        (backendKeyOf ns dn t.LoadBalancerID t.ListenerID t.LocationID) = [])
    (hne : podIPs ≠ []) (_hnodup : podIPs.Nodup) :
    registerCalls (syncPodToLB w nowGet now nowEnd c (some podIPs) ns dn).events
      = [(t.LoadBalancerID,
          podIPs.map (fun ip => { LoadBalancerID := t.LoadBalancerID,
                                  ListenerID := t.ListenerID,
                                  LocationID := t.LocationID,
                                  Port := p, EniIP := ip }))]
    ∧ deregisterCalls (syncPodToLB w nowGet now nowEnd c (some podIPs) ns dn).events = [] := by
  have hlen : podIPs.length > 0 := List.length_pos.mpr hne
  constructor
  · rw [registerCalls_syncPodToLB, htargets]
    simp only [List.flatMap_cons, List.flatMap_nil, List.append_nil]
    rw [registerCalls_targetCalls, newIPs_of_no_backends _ _ _ _ _ hbackends, if_pos hlen,
      registerTargetsOf_eq_map, hport]
  · rw [deregisterCalls_syncPodToLB, htargets]
    simp only [List.flatMap_cons, List.flatMap_nil, List.append_nil]
    rw [deregisterCalls_targetCalls, oldIPs_of_no_backends _ _ _ _ _ hbackends]
    rfl

/-- C2 witness: deployment `ns/app`, port 8080, pod IPs `10.0.0.5`. -/
theorem newPod_one_register_no_deregister_witness :
    registerCalls
        (syncPodToLB silentWorld 1 2 3 newPodCache (some ["10.0.0.5"]) "ns" "app").events
      = [("lb-1", [{ LoadBalancerID := "lb-1", ListenerID := "lbl-1", LocationID := "loc-1",
                     Port := 8080, EniIP := "10.0.0.5" }])]
    ∧ deregisterCalls
        (syncPodToLB silentWorld 1 2 3 newPodCache (some ["10.0.0.5"]) "ns" "app").events
      = [] :=
  newPod_one_register_no_deregister silentWorld 1 2 3 newPodCache ["10.0.0.5"] "ns" "app"
    scenarioTarget 8080 (by decide) (by decide) (by decide) (by decide) (by decide)

/-- C4: a pod that disappears without any port change is never deregistered.
For every ConfigTarget `t` whose recorded backends are all registered at the
configured port of `t`, and every list of observed pod IPs, the empty one
included, the removal set computed by `syncPodToLB` for `t` is empty; and
when this holds of each target of the deployment, the pass issues zero
deregister calls. -/
theorem samePort_never_deregistered (w : World) (nowGet now nowEnd : Int) (c : Config)
    (podIPs : List String) (ns dn : String) :
    (∀ t : ConfigTarget,
      (∀ b ∈ (GetTargets w nowGet now nowEnd c (targetKey ns dn)).config.backends
          (backendKeyOf ns dn t.LoadBalancerID t.ListenerID t.LocationID),
        b.Port = t.Port) →
      oldIPs (GetTargets w nowGet now nowEnd c (targetKey ns dn)).config ns dn podIPs t = [])
    ∧ ((∀ t ∈ (GetTargets w nowGet now nowEnd c (targetKey ns dn)).targets,
        ∀ b ∈ (GetTargets w nowGet now nowEnd c (targetKey ns dn)).config.backends
            (backendKeyOf ns dn t.LoadBalancerID t.ListenerID t.LocationID),
          b.Port = t.Port) →
      deregisterCalls (syncPodToLB w nowGet now nowEnd c (some podIPs) ns dn).events = []) := by
  have h1 : ∀ t : ConfigTarget,
      (∀ b ∈ (GetTargets w nowGet now nowEnd c (targetKey ns dn)).config.backends
          (backendKeyOf ns dn t.LoadBalancerID t.ListenerID t.LocationID),
        b.Port = t.Port) →
      oldIPs (GetTargets w nowGet now nowEnd c (targetKey ns dn)).config ns dn podIPs t = [] :=
    fun t ht => oldIPs_of_same_port _ _ _ _ _ ht
  refine ⟨h1, ?_⟩
  intro hsame
  rw [deregisterCalls_syncPodToLB, List.flatMap_eq_nil_iff]
  intro t ht
  rw [deregisterCalls_targetCalls, h1 t (hsame t ht)]
  rfl

/-- C4 witness: recorded `10.0.0.5:8080`, configured port 8080, no pod IP. -/
theorem samePort_never_deregistered_witness :
    samePortCache.targets "ns/app" = [scenarioTarget]
    ∧ samePortCache.backends scenarioKey = [{ IP := "10.0.0.5", Port := 8080 }]
    ∧ oldIPs samePortCache "ns" "app" [] scenarioTarget = []
    ∧ deregisterCalls (syncPodToLB silentWorld 1 2 3 samePortCache (some []) "ns" "app").events
        = [] :=
  ⟨by decide, by decide,
   (samePort_never_deregistered silentWorld 1 2 3 samePortCache [] "ns" "app").1
      scenarioTarget (by decide),
   (samePort_never_deregistered silentWorld 1 2 3 samePortCache [] "ns" "app").2
      (by decide)⟩

/-- C3, as stated, fails in its own scenario: with `10.0.0.5:9090` recorded,
configured port 8080 and pod IPs `10.0.0.5`, the pass issues no register call
at all, so none carrying `10.0.0.5` at port 8080. -/
theorem portChange_register_counterexample :
    portChangeCache.targets "ns/app" = [scenarioTarget]
    ∧ scenarioTarget.Port = 8080
    ∧ portChangeCache.backends scenarioKey = [{ IP := "10.0.0.5", Port := 9090 }]
    ∧ registerCalls
        (syncPodToLB silentWorld 1 2 3 portChangeCache (some ["10.0.0.5"]) "ns" "app").events
      = []
    ∧ ¬ ∃ call ∈ registerCalls
          (syncPodToLB silentWorld 1 2 3 portChangeCache (some ["10.0.0.5"]) "ns" "app").events,
        ∃ e ∈ call.2, e.EniIP = "10.0.0.5" ∧ e.Port = 8080 := by
  have h : registerCalls
      (syncPodToLB silentWorld 1 2 3 portChangeCache (some ["10.0.0.5"]) "ns" "app").events
      = [] := by decide
  refine ⟨by decide, by decide, by decide, h, ?_⟩
  rw [h]
  simp

/-- C3 (amended): port-change scenario. When the recorded backends of the one
target `t` of the deployment are `ip:q`, the configured port of `t` is `p`
with `p ≠ q`, and the observed pod IPs are `ip`, one pass of `syncPodToLB`
issues zero register calls (the additions compare bare IPs, and `ip` is
recorded) and exactly one deregister call, built from the removal set
`ip:q`; when `ip` contains no colon and `q` is a 64-bit integer that call
carries exactly one entry, `ip` at port `q`. -/
theorem portChange_no_register_one_deregister (w : World) (nowGet now nowEnd : Int)
    (c : Config) (ns dn : String) (t : ConfigTarget) (ip : String) (p q : Int)
    (htargets : (GetTargets w nowGet now nowEnd c (targetKey ns dn)).targets = [t])
    (hport : t.Port = p)
    (hbackends : (GetTargets w nowGet now nowEnd c (targetKey ns dn)).config.backends
        (backendKeyOf ns dn t.LoadBalancerID t.ListenerID t.LocationID)
        = [{ IP := ip, Port := q }])
    (hpq : p ≠ q) :
    registerCalls (syncPodToLB w nowGet now nowEnd c (some [ip]) ns dn).events = []
    ∧ deregisterCalls (syncPodToLB w nowGet now nowEnd c (some [ip]) ns dn).events
        = [(t.LoadBalancerID, deregisterTargetsOf t [formatIPPort ip q])]
    ∧ (':' ∉ ip.data → -(2 : Int) ^ 63 ≤ q → q < (2 : Int) ^ 63 →
        deregisterTargetsOf t [formatIPPort ip q]
          = [{ LoadBalancerID := t.LoadBalancerID, ListenerID := t.ListenerID,
               LocationID := t.LocationID, EniIP := ip, Port := q }]) := by
  refine ⟨?_, ?_, deregisterTargetsOf_single t ip q⟩
  · rw [registerCalls_syncPodToLB, htargets]
    simp only [List.flatMap_cons, List.flatMap_nil, List.append_nil]
    rw [registerCalls_targetCalls, newIPs_of_recorded _ _ _ _ _ _ hbackends]
    rfl
  · rw [deregisterCalls_syncPodToLB, htargets]
    simp only [List.flatMap_cons, List.flatMap_nil, List.append_nil]
    rw [deregisterCalls_targetCalls,
      oldIPs_of_other_port _ _ _ _ _ _ hbackends (by rw [hport]; exact hpq)]
    rfl

/-- C3 (amended) witness: recorded `10.0.0.5:9090`, configured port 8080, pod
IPs `10.0.0.5`: no register call, one deregister call for `10.0.0.5:9090`. -/
theorem portChange_no_register_one_deregister_witness :
    registerCalls
        (syncPodToLB silentWorld 1 2 3 portChangeCache (some ["10.0.0.5"]) "ns" "app").events
      = []
    ∧ deregisterCalls
        (syncPodToLB silentWorld 1 2 3 portChangeCache (some ["10.0.0.5"]) "ns" "app").events
      = [("lb-1", [{ LoadBalancerID := "lb-1", ListenerID := "lbl-1", LocationID := "loc-1",
                     EniIP := "10.0.0.5", Port := 9090 }])] := by
  have h := portChange_no_register_one_deregister silentWorld 1 2 3 portChangeCache "ns" "app"
    scenarioTarget "10.0.0.5" 8080 9090 (by decide) (by decide) (by decide) (by decide)
  refine ⟨h.1, ?_⟩
  rw [h.2.1, h.2.2 (by decide) (by decide) (by decide)]
  rfl

/-- C5, as stated, fails: in the new-pod scenario a second pass over the cache
left by the first, with the same pod IPs and the same recorded backends,
issues the register call again. -/
theorem second_pass_counterexample :
    (syncPodToLB silentWorld 4 5 6
        (syncPodToLB silentWorld 1 2 3 newPodCache (some ["10.0.0.5"]) "ns" "app").config
        (some ["10.0.0.5"]) "ns" "app").config.backends scenarioKey
      = newPodCache.backends scenarioKey
    ∧ registerCalls
        (syncPodToLB silentWorld 4 5 6
          (syncPodToLB silentWorld 1 2 3 newPodCache (some ["10.0.0.5"]) "ns" "app").config
          (some ["10.0.0.5"]) "ns" "app").events
      = [("lb-1", [{ LoadBalancerID := "lb-1", ListenerID := "lbl-1", LocationID := "loc-1",
                     Port := 8080, EniIP := "10.0.0.5" }])] := by
  decide

/-- C5 (amended): running the pass twice in a row with the same pod IPs, the
second pass working on the same recorded targets and backends as the first
left, the second pass issues exactly the register calls and the deregister
calls of the first pass: a pass does not record what it has registered, so
the second pass issues zero calls exactly when the first did. -/
theorem second_pass_repeats_first (w1 w2 : World) (g1 n1 e1 g2 n2 e2 : Int) (c c1 : Config)
    (podIPs : List String) (ns dn : String)
    (hc1 : c1 = (syncPodToLB w1 g1 n1 e1 c (some podIPs) ns dn).config)
    (htargets : (GetTargets w2 g2 n2 e2 c1 (targetKey ns dn)).config.targets = c1.targets)
    (hbackends : (GetTargets w2 g2 n2 e2 c1 (targetKey ns dn)).config.backends = c1.backends) :
    registerCalls (syncPodToLB w2 g2 n2 e2 c1 (some podIPs) ns dn).events
      = registerCalls (syncPodToLB w1 g1 n1 e1 c (some podIPs) ns dn).events
    ∧ deregisterCalls (syncPodToLB w2 g2 n2 e2 c1 (some podIPs) ns dn).events
      = deregisterCalls (syncPodToLB w1 g1 n1 e1 c (some podIPs) ns dn).events := by
  have hcfg : c1 = (GetTargets w1 g1 n1 e1 c (targetKey ns dn)).config := by
    rw [hc1, syncPodToLB_config]
  have ht : (GetTargets w2 g2 n2 e2 c1 (targetKey ns dn)).targets
      = (GetTargets w1 g1 n1 e1 c (targetKey ns dn)).targets := by
    rw [GetTargets_targets, htargets, hcfg, ← GetTargets_targets]
  have hcalls : ∀ t, targetCalls (GetTargets w2 g2 n2 e2 c1 (targetKey ns dn)).config
        ns dn podIPs t
      = targetCalls (GetTargets w1 g1 n1 e1 c (targetKey ns dn)).config ns dn podIPs t := by
    intro t
    rw [targetCalls_congr _ c1 hbackends, hcfg]
  constructor
  · rw [registerCalls_syncPodToLB, registerCalls_syncPodToLB, ht]
    simp only [hcalls]
  · rw [deregisterCalls_syncPodToLB, deregisterCalls_syncPodToLB, ht]
    simp only [hcalls]

/-- C5 (amended) witness: the new-pod scenario, second pass within the TTL. -/
theorem second_pass_repeats_first_witness :
    registerCalls
        (syncPodToLB silentWorld 4 5 6
          (syncPodToLB silentWorld 1 2 3 newPodCache (some ["10.0.0.5"]) "ns" "app").config
          (some ["10.0.0.5"]) "ns" "app").events
      = registerCalls
          (syncPodToLB silentWorld 1 2 3 newPodCache (some ["10.0.0.5"]) "ns" "app").events
    ∧ deregisterCalls
        (syncPodToLB silentWorld 4 5 6
          (syncPodToLB silentWorld 1 2 3 newPodCache (some ["10.0.0.5"]) "ns" "app").config
          (some ["10.0.0.5"]) "ns" "app").events
      = deregisterCalls
          (syncPodToLB silentWorld 1 2 3 newPodCache (some ["10.0.0.5"]) "ns" "app").events :=
  second_pass_repeats_first silentWorld silentWorld 1 2 3 4 5 6 newPodCache _
    ["10.0.0.5"] "ns" "app" rfl rfl rfl

/-- C6: rule matching in a refresh. For every rule document and every
resolver output, after a `loadConfig` past the TTL that parsed the document,
a ConfigTarget (load-balancer id `L`, listener id, location id, backend port)
is stored under a key iff the document declares, under a load balancer `L`
whose listeners were resolved, a listener (port, protocol) with a rule
(domain, URL, backend namespace/deployment/port) whose `namespace/deployment`
is that key, and the live listeners of `L` with protocol `HTTP` or `HTTPS`
contain a listener with the same port and the same protocol ignoring case
that owns a rule with exactly the same domain and URL and that location id.
A declaration with no such live match produces no ConfigTarget. -/
theorem ruleMatching_iff (w : World) (now nowEnd : Int) (c : Config)
    (configs : List RuleConfig) (hstale : ttl ≤ since now c.lastLoad)
    (hdoc : w.rulesFile = RulesFile.parsed configs) (key : String) (t : ConfigTarget) :
    t ∈ (loadConfig w now nowEnd c).config.targets key
      ↔ ∃ cfg ∈ configs, ∃ response,
          w.describeTargets cfg.LoadBalancerID = some response ∧
          ∃ cl ∈ cfg.Listeners, ∃ l ∈ response,
            (l.Protocol = "HTTP" ∨ l.Protocol = "HTTPS") ∧
            cl.Port = l.Port ∧ toLower cl.Protocol = toLower l.Protocol ∧
            ∃ cr ∈ cl.Rules, ∃ r ∈ l.Rules,
              cr.Domain = r.Domain ∧ cr.URL = r.URL ∧
              key = targetKey cr.Backend.Namespace cr.Backend.Deployment ∧
              t = { LoadBalancerID := cfg.LoadBalancerID, ListenerID := l.ListenerID,
                    LocationID := r.LocationID, Port := cr.Backend.Port } := by
  rw [(loadConfig_parsed w now nowEnd c configs (not_lt.mpr hstale) hdoc).2.1 key]
  simp only [List.mem_map, List.mem_filter, mem_allMatches, decide_eq_true_eq]
  constructor
  · rintro ⟨m, ⟨hm, hkey⟩, ht⟩
    obtain ⟨cfg, hcfg, hlb, response, hd, cl, hcl, hl, hproto, hport, hlow, hcr, hr, hdom,
      hurl⟩ := hm
    refine ⟨cfg, hcfg, response, by rw [hlb]; exact hd, cl, hcl, m.listener, hl, hproto, hport,
      hlow, m.configRule, hcr, m.rule, hr, hdom, hurl, hkey.symm, ?_⟩
    rw [← ht, hlb]
    rfl
  · rintro ⟨cfg, hcfg, response, hd, cl, hcl, l, hl, hproto, hport, hlow, cr, hcr, r, hr, hdom,
      hurl, hkey, ht⟩
    refine ⟨{ loadBalancerID := cfg.LoadBalancerID, listener := l, configRule := cr,
              rule := r }, ⟨?_, hkey.symm⟩, ht.symm⟩
    exact ⟨cfg, hcfg, rfl, response, hd, cl, hcl, hl, hproto, hport, hlow, hcr, hr, hdom, hurl⟩

/-- C6 witness: `exampleDoc` against `exampleListeners`; the refresh stores
the target of `lb-1` under `ns/app`. -/
theorem ruleMatching_iff_witness :
    ttl ≤ since 60000000000 emptyCache.lastLoad
    ∧ (loadConfig exampleWorld 60000000000 60000000001 emptyCache).config.targets "ns/app"
        = [scenarioTarget]
    ∧ ∃ cfg ∈ exampleDoc, ∃ response,
        exampleWorld.describeTargets cfg.LoadBalancerID = some response ∧
        ∃ cl ∈ cfg.Listeners, ∃ l ∈ response,
          (l.Protocol = "HTTP" ∨ l.Protocol = "HTTPS") ∧
          cl.Port = l.Port ∧ toLower cl.Protocol = toLower l.Protocol ∧
          ∃ cr ∈ cl.Rules, ∃ r ∈ l.Rules,
            cr.Domain = r.Domain ∧ cr.URL = r.URL ∧
            "ns/app" = targetKey cr.Backend.Namespace cr.Backend.Deployment ∧
            scenarioTarget
              = { LoadBalancerID := cfg.LoadBalancerID, ListenerID := l.ListenerID,
                  LocationID := r.LocationID, Port := cr.Backend.Port } :=
  ⟨by decide, by decide,
   (ruleMatching_iff exampleWorld 60000000000 60000000001 emptyCache exampleDoc
      (by decide) rfl "ns/app" scenarioTarget).mp (by decide)⟩

/-- C7, as stated, fails: the registered target of the matched live rule has
the private IP addresses `10.0.0.5` and `10.0.0.6`, and the snapshot stored
under the composite key holds only the first. -/
theorem snapshot_counterexample :
    (loadConfig exampleWorld 60000000000 60000000001 emptyCache).config.targets "ns/app"
        = [scenarioTarget]
    ∧ exampleWorld.describeTargets "lb-1"
        = some [{ ListenerID := "lbl-1", Port := 80, Protocol := "HTTP",
                  Rules := [{ Domain := "a.com", LocationID := "loc-1", URL := "/",
                              Targets := [{ Port := 8080,
                                            PrivateIPAddresses :=
                                              ["10.0.0.5", "10.0.0.6"] }] }] }]
    ∧ (loadConfig exampleWorld 60000000000 60000000001 emptyCache).config.backends
          (backendKeyOf "ns" "app" "lb-1" "lbl-1" "loc-1")
        = [{ IP := "10.0.0.5", Port := 8080 }]
    ∧ ({ IP := "10.0.0.6", Port := 8080 } : Backend)
        ∉ (loadConfig exampleWorld 60000000000 60000000001 emptyCache).config.backends
            (backendKeyOf "ns" "app" "lb-1" "lbl-1" "loc-1") := by
  decide

/-- C7 (amended): for every declared rule `cr` of load balancer `lb` matched
against a live rule `r` of listener `l`, provided every match that yields the
same composite key builds the same backend list, the snapshot stored under
the composite key namespace/deployment/load-balancer id/listener id/location
id is the backend list built from `r`, which holds, for each registered
target of `r` that has a private IP address, the pair of its first private
IP address and its port, and nothing else. -/
theorem snapshot_first_private_ip (w : World) (now nowEnd : Int) (c : Config)
    (configs : List RuleConfig) (lb : String) (l : Listener) (cr : ConfigRule) (r : Rule)
    (hstale : ttl ≤ since now c.lastLoad)
    (hdoc : w.rulesFile = RulesFile.parsed configs)
    (hmatch : IsMatch w configs lb l cr r)
    (hsame : ∀ lb2 l2 cr2 r2, IsMatch w configs lb2 l2 cr2 r2 →
      backendKeyOf cr2.Backend.Namespace cr2.Backend.Deployment lb2 l2.ListenerID r2.LocationID
        = backendKeyOf cr.Backend.Namespace cr.Backend.Deployment lb l.ListenerID r.LocationID →
      ruleBackends r2.Targets = ruleBackends r.Targets) :
    (loadConfig w now nowEnd c).config.backends
        (backendKeyOf cr.Backend.Namespace cr.Backend.Deployment lb l.ListenerID r.LocationID)
      = ruleBackends r.Targets
    ∧ ∀ b, b ∈ (loadConfig w now nowEnd c).config.backends
          (backendKeyOf cr.Backend.Namespace cr.Backend.Deployment lb l.ListenerID
            r.LocationID)
        ↔ ∃ tg ∈ r.Targets, ∃ ip rest, tg.PrivateIPAddresses = ip :: rest
            ∧ b = { IP := ip, Port := tg.Port } := by
  have hstored : (loadConfig w now nowEnd c).config.backends
        (backendKeyOf cr.Backend.Namespace cr.Backend.Deployment lb l.ListenerID r.LocationID)
      = ruleBackends r.Targets := by
    rw [(loadConfig_parsed w now nowEnd c configs (not_lt.mpr hstale) hdoc).2.2.1]
    have hall : ∀ m ∈ allMatches w configs,
        m.backendKey
          = backendKeyOf cr.Backend.Namespace cr.Backend.Deployment lb l.ListenerID r.LocationID →
        m.snapshot = ruleBackends r.Targets := by
      intro m hm hk
      exact hsame _ _ _ _ ((mem_allMatches w configs m).mp hm) hk
    by_cases hv : (ruleBackends r.Targets).length > 0
    · refine snapshotAt_of_same_write _ _ _ _ hv hall (Or.inr ?_)
      exact ⟨{ loadBalancerID := lb, listener := l, configRule := cr, rule := r },
        (mem_allMatches w configs _).mpr hmatch, rfl⟩
    · have hnil : ruleBackends r.Targets = [] := by
        rw [← List.length_eq_zero]
        omega
      rw [hnil]
      refine snapshotAt_of_no_write _ _ _ ?_
      intro m hm hk
      rw [hall m hm hk, hnil]
      rfl
  refine ⟨hstored, ?_⟩
  intro b
  rw [hstored]
  exact mem_ruleBackends r.Targets b

/-- C7 (amended) witness: `exampleDoc` against `exampleListeners`; the
snapshot under `ns/app/lb-1/lbl-1/loc-1` is `10.0.0.5:8080`. -/
theorem snapshot_first_private_ip_witness :
    (loadConfig exampleWorld 60000000000 60000000001 emptyCache).config.backends
        (backendKeyOf "ns" "app" "lb-1" "lbl-1" "loc-1")
      = [{ IP := "10.0.0.5", Port := 8080 }] := by
  have hall : ∀ m ∈ allMatches exampleWorld exampleDoc,
      m.snapshot = [{ IP := "10.0.0.5", Port := 8080 }] := by decide
  have hmatch : IsMatch exampleWorld exampleDoc "lb-1"
      { ListenerID := "lbl-1", Port := 80, Protocol := "HTTP",
        Rules := [{ Domain := "a.com", LocationID := "loc-1", URL := "/",
                    Targets := [{ Port := 8080,
                                  PrivateIPAddresses := ["10.0.0.5", "10.0.0.6"] }] }] }
      { Domain := "a.com", URL := "/",
        Backend := { Namespace := "ns", Deployment := "app", Port := 8080 } }
      { Domain := "a.com", LocationID := "loc-1", URL := "/",
        Targets := [{ Port := 8080, PrivateIPAddresses := ["10.0.0.5", "10.0.0.6"] }] } :=
    (mem_allMatches exampleWorld exampleDoc
      { loadBalancerID := "lb-1",
        listener :=
          { ListenerID := "lbl-1", Port := 80, Protocol := "HTTP",
            Rules := [{ Domain := "a.com", LocationID := "loc-1", URL := "/",
                        Targets := [{ Port := 8080,
                                      PrivateIPAddresses := ["10.0.0.5", "10.0.0.6"] }] }] },
        configRule :=
          { Domain := "a.com", URL := "/",
            Backend := { Namespace := "ns", Deployment := "app", Port := 8080 } },
        rule :=
          { Domain := "a.com", LocationID := "loc-1", URL := "/",
            Targets := [{ Port := 8080,
                          PrivateIPAddresses := ["10.0.0.5", "10.0.0.6"] }] } }).mp
      (by decide)
  exact (snapshot_first_private_ip exampleWorld 60000000000 60000000001 emptyCache exampleDoc
    "lb-1" _ _ _ (by decide) rfl hmatch
    (fun lb2 l2 cr2 r2 h _ =>
      hall { loadBalancerID := lb2, listener := l2, configRule := cr2, rule := r2 }
        ((mem_allMatches exampleWorld exampleDoc _).mpr h))).1

/-- C8: failure isolation. For every rule document covering two distinct load
balancers `X` and `Y` whose load-balancer, listener and location ids contain
no `/` (the separator of the composite key), if the resolver fails for `X` and
succeeds for `Y` during a refresh, the refresh still succeeds, and for every
declared rule of `Y` matched against a live rule of `Y`: its ConfigTarget is
in the targets index under its `namespace/deployment` key; the backend
snapshot under its composite key is identical to what it would be had the
resolution of `X` succeeded (`w2` is that world: `X` resolves and every other
answer is that of `w`); it is what the declarations and live listeners of `Y`
alone produce; and it is the backend list built from that live rule when the
live rules of `Y` with the same listener and location id carry the same
registered targets. Under every key the targets of `Y` are identical to what
they would be had the resolution of `X` succeeded, and to what `Y` alone
produces. -/
theorem failure_isolation (w w2 : World) (now nowEnd : Int) (c : Config)
    (configs : List RuleConfig) (X Y : String) (listenersOfX listenersOfY : List Listener)
    (hstale : ttl ≤ since now c.lastLoad)
    (hdoc : w.rulesFile = RulesFile.parsed configs)
    (hdoc2 : w2.rulesFile = RulesFile.parsed configs)
    (_hcoverX : ∃ cfg ∈ configs, cfg.LoadBalancerID = X)
    (_hcoverY : ∃ cfg ∈ configs, cfg.LoadBalancerID = Y)
    (hXY : X ≠ Y)
    (hX : w.describeTargets X = none)
    (hY : w.describeTargets Y = some listenersOfY)
    (_hX2 : w2.describeTargets X = some listenersOfX)
    (hsame : ∀ lb, lb ≠ X → w2.describeTargets lb = w.describeTargets lb)
    (hlbids : ∀ cfg ∈ configs, '/' ∉ cfg.LoadBalancerID.data)
    (hliveids : ∀ cfg ∈ configs, ∀ response,
      w2.describeTargets cfg.LoadBalancerID = some response →
      ∀ l ∈ response, '/' ∉ l.ListenerID.data ∧ ∀ r ∈ l.Rules, '/' ∉ r.LocationID.data) :
    (loadConfig w now nowEnd c).err = none
    ∧ (∀ l cr r, IsMatch w configs Y l cr r →
        ({ LoadBalancerID := Y, ListenerID := l.ListenerID, LocationID := r.LocationID,
           Port := cr.Backend.Port } : ConfigTarget)
          ∈ (loadConfig w now nowEnd c).config.targets
              (targetKey cr.Backend.Namespace cr.Backend.Deployment)
        ∧ (loadConfig w now nowEnd c).config.backends
              (backendKeyOf cr.Backend.Namespace cr.Backend.Deployment Y l.ListenerID
                r.LocationID)
            = (loadConfig w2 now nowEnd c).config.backends
                (backendKeyOf cr.Backend.Namespace cr.Backend.Deployment Y l.ListenerID
                  r.LocationID)
        ∧ (loadConfig w now nowEnd c).config.backends
              (backendKeyOf cr.Backend.Namespace cr.Backend.Deployment Y l.ListenerID
                r.LocationID)
            = (loadConfig (soloWorld w.rulesFile Y listenersOfY) now nowEnd c).config.backends
                (backendKeyOf cr.Backend.Namespace cr.Backend.Deployment Y l.ListenerID
                  r.LocationID)
        ∧ ((∀ l2 ∈ listenersOfY, ∀ r2 ∈ l2.Rules,
              l2.ListenerID = l.ListenerID → r2.LocationID = r.LocationID →
              r2.Targets = r.Targets) →
            (loadConfig w now nowEnd c).config.backends
                (backendKeyOf cr.Backend.Namespace cr.Backend.Deployment Y l.ListenerID
                  r.LocationID)
              = ruleBackends r.Targets))
    ∧ (∀ key, (loadConfig w now nowEnd c).config.targets key
        = ((loadConfig w2 now nowEnd c).config.targets key).filter
            (fun t => decide (t.LoadBalancerID ≠ X)))
    ∧ (∀ key, ((loadConfig w now nowEnd c).config.targets key).filter
          (fun t => decide (t.LoadBalancerID = Y))
        = ((loadConfig w2 now nowEnd c).config.targets key).filter
            (fun t => decide (t.LoadBalancerID = Y)))
    ∧ (∀ key, ((loadConfig w now nowEnd c).config.targets key).filter
          (fun t => decide (t.LoadBalancerID = Y))
        = (loadConfig (soloWorld w.rulesFile Y listenersOfY) now nowEnd c).config.targets
            key) := by
  have h1 := loadConfig_parsed w now nowEnd c configs (not_lt.mpr hstale) hdoc
  have h2 := loadConfig_parsed w2 now nowEnd c configs (not_lt.mpr hstale) hdoc2
  have hS := loadConfig_parsed (soloWorld w.rulesFile Y listenersOfY) now nowEnd c configs
    (not_lt.mpr hstale) hdoc
  have hms := allMatches_of_failure w w2 configs X hX hsame
  have hmsY : allMatches (soloWorld w.rulesFile Y listenersOfY) configs
      = (allMatches w configs).filter (fun m => decide (m.loadBalancerID = Y)) := by
    apply allMatches_restrict _ _ _ (fun lb => decide (lb = Y))
    · intro lb hlb
      have hne : lb ≠ Y := by simpa using hlb
      simp [soloWorld, hne]
    · intro lb hlb
      have he : lb = Y := by simpa using hlb
      subst he
      simp [soloWorld, hY]
  have hsub : ∀ m ∈ allMatches w configs, m ∈ allMatches w2 configs := by
    intro m hm
    rw [hms] at hm
    exact (List.mem_filter.mp hm).1
  have hids2 : ∀ m ∈ allMatches w2 configs,
      '/' ∉ m.loadBalancerID.data ∧ '/' ∉ m.listener.ListenerID.data
        ∧ '/' ∉ m.rule.LocationID.data :=
    fun m hm => match_ids_no_slash w2 configs m hm hlbids hliveids
  have htargets : ∀ key, (loadConfig w now nowEnd c).config.targets key
      = ((loadConfig w2 now nowEnd c).config.targets key).filter
          (fun t => decide (t.LoadBalancerID ≠ X)) := by
    intro key
    rw [h1.2.1 key, h2.2.1 key, hms, List.filter_map, List.filter_filter, List.filter_filter]
    congr 1
    apply List.filter_congr
    intro m _
    simp [RuleMatch.target, Bool.and_comm]
  refine ⟨h1.1, ?_, htargets, ?_, ?_⟩
  · intro l cr r hm
    have hm0 : ({ loadBalancerID := Y, listener := l, configRule := cr, rule := r } : RuleMatch)
        ∈ allMatches w configs := (mem_allMatches w configs _).mpr hm
    have hid0 := hids2 _ (hsub _ hm0)
    refine ⟨?_, ?_, ?_, ?_⟩
    · rw [h1.2.1]
      simp only [List.mem_map, List.mem_filter, decide_eq_true_eq]
      exact ⟨_, ⟨hm0, rfl⟩, rfl⟩
    · rw [h1.2.2.1, h2.2.2.1, hms]
      apply snapshotAt_filter
      intro m hmem hp hkey
      have hlb : m.loadBalancerID = X := by simpa using hp
      have := (backendKey_ids_eq m _ (hids2 m hmem) hid0 hkey).1
      exact hXY (hlb.symm.trans this)
    · rw [h1.2.2.1, hS.2.2.1, hmsY]
      symm
      apply snapshotAt_filter
      intro m hmem hp hkey
      have hlb : m.loadBalancerID ≠ Y := by simpa using hp
      exact hlb (backendKey_ids_eq m _ (hids2 m (hsub m hmem)) hid0 hkey).1
    · intro hident
      rw [h1.2.2.1]
      have hall : ∀ m ∈ allMatches w configs,
          m.backendKey
            = backendKeyOf cr.Backend.Namespace cr.Backend.Deployment Y l.ListenerID
                r.LocationID →
          m.snapshot = ruleBackends r.Targets := by
        intro m hmem hkey
        obtain ⟨e1, e2, e3⟩ := backendKey_ids_eq m
          { loadBalancerID := Y, listener := l, configRule := cr, rule := r }
          (hids2 m (hsub m hmem)) hid0 hkey
        obtain ⟨_, _, _, response, hd, _, _, hl, _, _, _, _, hr, _, _⟩ :=
          (mem_allMatches w configs m).mp hmem
        have e1b : m.loadBalancerID = Y := e1
        rw [e1b, hY] at hd
        have hresp : listenersOfY = response := Option.some.inj hd
        rw [← hresp] at hl
        have := hident m.listener hl m.rule hr e2 e3
        unfold RuleMatch.snapshot
        rw [this]
      by_cases hv : (ruleBackends r.Targets).length > 0
      · exact snapshotAt_of_same_write _ _ _ _ hv hall (Or.inr ⟨_, hm0, rfl⟩)
      · have hnil : ruleBackends r.Targets = [] := by
          rw [← List.length_eq_zero]
          omega
        rw [hnil]
        refine snapshotAt_of_no_write _ _ _ ?_
        intro m hmem hk
        rw [hall m hmem hk, hnil]
        rfl
  · intro key
    rw [htargets key, List.filter_filter]
    apply List.filter_congr
    intro t _
    by_cases ht : t.LoadBalancerID = Y
    · have : t.LoadBalancerID ≠ X := fun h => hXY (h.symm.trans ht)
      simp [ht, this, hXY.symm]
    · simp [ht]
  · intro key
    rw [h1.2.1 key, hS.2.1 key, hmsY, List.filter_map, List.filter_filter,
      List.filter_filter]
    congr 1
    apply List.filter_congr
    intro m _
    simp [RuleMatch.target, Bool.and_comm]

/-- C8 witness: a document over `lb-1` and `lb-2`, the resolver failing for
`lb-2`: the refresh succeeds, the target of `lb-1` is under `ns/app`, and the
snapshot of `lb-1` under `ns/app/lb-1/lbl-1/loc-1` is `10.0.0.5:8080`, as it is
in the world where `lb-2` resolves as well. -/
theorem failure_isolation_witness :
    (loadConfig isolationWorld 60000000000 60000000001 emptyCache).err = none
    ∧ scenarioTarget
        ∈ (loadConfig isolationWorld 60000000000 60000000001 emptyCache).config.targets
            "ns/app"
    ∧ (loadConfig isolationWorld 60000000000 60000000001 emptyCache).config.backends
          "ns/app/lb-1/lbl-1/loc-1"
        = (loadConfig isolationWorld2 60000000000 60000000001 emptyCache).config.backends
            "ns/app/lb-1/lbl-1/loc-1"
    ∧ (loadConfig isolationWorld 60000000000 60000000001 emptyCache).config.backends
          "ns/app/lb-1/lbl-1/loc-1"
        = [{ IP := "10.0.0.5", Port := 8080 }] := by
  have hmatch : IsMatch isolationWorld isolationDoc "lb-1"
      { ListenerID := "lbl-1", Port := 80, Protocol := "HTTP",
        Rules := [{ Domain := "a.com", LocationID := "loc-1", URL := "/",
                    Targets := [{ Port := 8080,
                                  PrivateIPAddresses := ["10.0.0.5", "10.0.0.6"] }] }] }
      { Domain := "a.com", URL := "/",
        Backend := { Namespace := "ns", Deployment := "app", Port := 8080 } }
      { Domain := "a.com", LocationID := "loc-1", URL := "/",
        Targets := [{ Port := 8080, PrivateIPAddresses := ["10.0.0.5", "10.0.0.6"] }] } :=
    (mem_allMatches isolationWorld isolationDoc
      { loadBalancerID := "lb-1",
        listener :=
          { ListenerID := "lbl-1", Port := 80, Protocol := "HTTP",
            Rules := [{ Domain := "a.com", LocationID := "loc-1", URL := "/",
                        Targets := [{ Port := 8080,
                                      PrivateIPAddresses := ["10.0.0.5", "10.0.0.6"] }] }] },
        configRule :=
          { Domain := "a.com", URL := "/",
            Backend := { Namespace := "ns", Deployment := "app", Port := 8080 } },
        rule :=
          { Domain := "a.com", LocationID := "loc-1", URL := "/",
            Targets := [{ Port := 8080,
                          PrivateIPAddresses := ["10.0.0.5", "10.0.0.6"] }] } }).mp
      (by decide)
  have hlive : ∀ cfg ∈ isolationDoc, ∀ response,
      isolationWorld2.describeTargets cfg.LoadBalancerID = some response →
      ∀ l ∈ response, '/' ∉ l.ListenerID.data ∧ ∀ r ∈ l.Rules, '/' ∉ r.LocationID.data := by
    intro cfg hcfg response hresp
    have hcases : cfg.LoadBalancerID = "lb-1" ∨ cfg.LoadBalancerID = "lb-2" := by
      simp only [isolationDoc, exampleDoc, List.cons_append, List.nil_append, List.mem_cons,
        List.mem_singleton, List.not_mem_nil, or_false] at hcfg
      rcases hcfg with h | h <;> rw [h]
      · exact Or.inl rfl
      · exact Or.inr rfl
    have hex : response = exampleListeners := by
      rcases hcases with h | h <;> rw [h] at hresp <;> exact (Option.some.inj hresp).symm
    rw [hex]
    decide
  have h := failure_isolation isolationWorld isolationWorld2 60000000000 60000000001
    emptyCache isolationDoc "lb-2" "lb-1" exampleListeners exampleListeners
    (by decide) rfl rfl (by decide) (by decide) (by decide) (by decide) (by decide)
    (by decide)
    (fun lb hlb => by simp [isolationWorld, isolationWorld2, hlb])
    (by decide) hlive
  have hm := h.2.1 _ _ _ hmatch
  exact ⟨h.1, hm.1, hm.2.1, hm.2.2.2 (by decide)⟩

/-- C9: TTL no-op. For every cache state and every clock reading at which
less than 60 seconds have elapsed since the recorded last refresh,
`loadConfig` returns success without reading the rule document or calling
the resolver (it issues no call at all) and leaves the targets index, the
backends index and the timestamp unchanged. Consequently, of two lookups
(`GetTargets`) in a row whose clock readings are less than the TTL apart, at
most one triggers resolver calls: either the first issues no resolver call,
or the second issues no call at all. -/
theorem ttl_noop (w : World) (now nowEnd : Int) (c : Config)
    (hfresh : since now c.lastLoad < ttl) :
    ((loadConfig w now nowEnd c).err = none
      ∧ (loadConfig w now nowEnd c).events = []
      ∧ (loadConfig w now nowEnd c).config.targets = c.targets
      ∧ (loadConfig w now nowEnd c).config.backends = c.backends
      ∧ (loadConfig w now nowEnd c).config.lastLoad = c.lastLoad)
    ∧ ∀ (w1 w2 : World) (get1 now1 end1 get2 now2 end2 : Int) (key1 key2 : String),
        get1 ≤ end1 → since get2 get1 < ttl →
        describeCalls (GetTargets w1 get1 now1 end1 c key1).events = []
        ∨ (GetTargets w2 get2 now2 end2
            (GetTargets w1 get1 now1 end1 c key1).config key2).events = [] := by
  constructor
  · unfold loadConfig
    rw [if_pos hfresh]
    exact ⟨rfl, rfl, rfl, rfl, rfl⟩
  · intro w1 w2 get1 now1 end1 get2 now2 end2 key1 key2 hmono hsep
    by_cases hget : since get1 c.lastLoad ≥ ttl
    · by_cases hnow : since now1 c.lastLoad < ttl
      · left
        simp [GetTargets, hget, loadConfig, hnow, describeCalls]
      · cases hdoc : w1.rulesFile with
        | unreadable =>
          left
          simp [GetTargets, hget, loadConfig, hnow, hdoc, describeCalls]
        | unparsable =>
          left
          simp [GetTargets, hget, loadConfig, hnow, hdoc, describeCalls]
        | parsed configs =>
          right
          have hlast : (GetTargets w1 get1 now1 end1 c key1).config.lastLoad = end1 := by
            simp [GetTargets, hget, loadConfig, hnow, hdoc]
          have hfresh2 : ¬ since get2 (GetTargets w1 get1 now1 end1 c key1).config.lastLoad
              ≥ ttl := by
            rw [hlast]
            unfold since at *
            omega
          unfold GetTargets at hfresh2 ⊢
          rw [if_pos hget] at hfresh2 ⊢
          dsimp only at hfresh2 ⊢
          rw [if_neg hfresh2]
    · left
      simp [GetTargets, hget, describeCalls]

/-- C9 witness: a cache refreshed at reading 0 and asked again one second
later is left alone; and of two lookups three nanoseconds apart on that cache,
one minute after its refresh, the first refreshes and the second issues no
call. -/
theorem ttl_noop_witness :
    since 1000000000 newPodCache.lastLoad < ttl
    ∧ (loadConfig exampleWorld 1000000000 1000000001 newPodCache).err = none
    ∧ (loadConfig exampleWorld 1000000000 1000000001 newPodCache).events = []
    ∧ (loadConfig exampleWorld 1000000000 1000000001 newPodCache).config.lastLoad = 0
    ∧ (describeCalls
          (GetTargets exampleWorld 60000000000 60000000001 60000000002 newPodCache
            "ns/app").events = []
        ∨ (GetTargets exampleWorld 60000000003 60000000004 60000000005
            (GetTargets exampleWorld 60000000000 60000000001 60000000002 newPodCache
              "ns/app").config "ns/app").events = []) :=
  ⟨by decide,
   (ttl_noop exampleWorld 1000000000 1000000001 newPodCache (by decide)).1.1,
   (ttl_noop exampleWorld 1000000000 1000000001 newPodCache (by decide)).1.2.1,
   (ttl_noop exampleWorld 1000000000 1000000001 newPodCache (by decide)).1.2.2.2.2,
   (ttl_noop exampleWorld 1000000000 1000000001 newPodCache (by decide)).2
      exampleWorld exampleWorld 60000000000 60000000001 60000000002
      60000000003 60000000004 60000000005 "ns/app" "ns/app" (by decide) (by decide)⟩

/-- C10, as stated, fails: past the TTL, with a rule document that cannot be
read (and likewise one that cannot be parsed), `loadConfig` returns an error
and keeps the indices, but the timestamp stays at the previous refresh, 0,
instead of advancing to the current time. -/
theorem config_error_counterexample :
    ttl ≤ since 60000000000 newPodCache.lastLoad
    ∧ (loadConfig silentWorld 60000000000 60000000001 newPodCache).err
        = some LoadError.readFailed
    ∧ (loadConfig silentWorld 60000000000 60000000001 newPodCache).config.lastLoad = 0
    ∧ (loadConfig silentWorld 60000000000 60000000001 newPodCache).config.lastLoad
        ≠ 60000000000
    ∧ (loadConfig silentWorld 60000000000 60000000001 newPodCache).config.lastLoad
        ≠ 60000000001
    ∧ (loadConfig unparsableWorld 60000000000 60000000001 newPodCache).err
        = some LoadError.parseFailed
    ∧ (loadConfig unparsableWorld 60000000000 60000000001 newPodCache).config.lastLoad = 0 := by
  decide

/-- C10 (amended): for every cache state whose TTL has expired, when the rule
document cannot be read or parsed, `loadConfig` returns an error, retains the
previous targets and backends indices, and leaves the last-refresh timestamp
unchanged; it has read the document and called no resolver, and the next
lookup at a later clock reading attempts the refresh again. -/
theorem config_error_keeps_cache (w : World) (now nowEnd : Int) (c : Config)
    (hstale : ttl ≤ since now c.lastLoad)
    (hdoc : w.rulesFile = RulesFile.unreadable ∨ w.rulesFile = RulesFile.unparsable) :
    (loadConfig w now nowEnd c).err ≠ none
    ∧ (loadConfig w now nowEnd c).config.targets = c.targets
    ∧ (loadConfig w now nowEnd c).config.backends = c.backends
    ∧ (loadConfig w now nowEnd c).config.lastLoad = c.lastLoad
    ∧ (loadConfig w now nowEnd c).events = [Event.ReadFile]
    ∧ ∀ (w2 : World) (get2 now2 end2 : Int) (key : String), now ≤ get2 → get2 ≤ now2 →
        (GetTargets w2 get2 now2 end2 (loadConfig w now nowEnd c).config key).events
          = (loadConfig w2 now2 end2 c).events
        ∧ Event.ReadFile
            ∈ (GetTargets w2 get2 now2 end2 (loadConfig w now nowEnd c).config key).events := by
  have hnot : ¬ since now c.lastLoad < ttl := not_lt.mpr hstale
  have hcfg : (loadConfig w now nowEnd c).config = c := by
    unfold loadConfig
    rw [if_neg hnot]
    rcases hdoc with h | h <;> rw [h]
  have herr : (loadConfig w now nowEnd c).err ≠ none := by
    unfold loadConfig
    rw [if_neg hnot]
    rcases hdoc with h | h <;> rw [h] <;> simp
  have hev : (loadConfig w now nowEnd c).events = [Event.ReadFile] := by
    unfold loadConfig
    rw [if_neg hnot]
    rcases hdoc with h | h <;> rw [h]
  refine ⟨herr, by rw [hcfg], by rw [hcfg], by rw [hcfg], hev, ?_⟩
  intro w2 get2 now2 end2 key h1 h2
  rw [hcfg]
  have hget : since get2 c.lastLoad ≥ ttl := by
    unfold since at *
    omega
  have hnow2 : ¬ since now2 c.lastLoad < ttl := by
    unfold since at *
    omega
  have hevents : (GetTargets w2 get2 now2 end2 c key).events
      = (loadConfig w2 now2 end2 c).events := by
    unfold GetTargets
    rw [if_pos hget]
  refine ⟨hevents, ?_⟩
  rw [hevents]
  unfold loadConfig
  rw [if_neg hnow2]
  cases w2.rulesFile with
  | unreadable => simp
  | unparsable => simp
  | parsed configs =>
    dsimp only
    rw [processConfigs_events]
    simp

/-- C10 (amended) witness: the scenario cache, one minute after its refresh,
with an unreadable rule document; the lookup that follows reads the document
again. -/
theorem config_error_keeps_cache_witness :
    ttl ≤ since 60000000000 newPodCache.lastLoad
    ∧ (loadConfig silentWorld 60000000000 60000000001 newPodCache).err ≠ none
    ∧ (loadConfig silentWorld 60000000000 60000000001 newPodCache).config.lastLoad
        = newPodCache.lastLoad
    ∧ Event.ReadFile
        ∈ (GetTargets exampleWorld 60000000002 60000000003 60000000004
            (loadConfig silentWorld 60000000000 60000000001 newPodCache).config
            "ns/app").events :=
  ⟨by decide,
   (config_error_keeps_cache silentWorld 60000000000 60000000001 newPodCache (by decide)
      (Or.inl rfl)).1,
   (config_error_keeps_cache silentWorld 60000000000 60000000001 newPodCache (by decide)
      (Or.inl rfl)).2.2.2.1,
   ((config_error_keeps_cache silentWorld 60000000000 60000000001 newPodCache (by decide)
      (Or.inl rfl)).2.2.2.2.2 exampleWorld 60000000002 60000000003 60000000004 "ns/app"
      (by decide) (by decide)).2⟩

/-- C12: `intersection a b` is exactly the elements of `a` that occur in `b`,
in their original order in `a`; `x` is in the result iff `x` is in `a` and in
`b`; and the result is empty when either list is empty. -/
theorem intersection_spec (a b : List String) :
    intersection a b = a.filter (fun x => decide (x ∈ b))
    ∧ List.Sublist (intersection a b) a
    ∧ (∀ x, x ∈ intersection a b ↔ x ∈ a ∧ x ∈ b)
    ∧ intersection [] b = []
    ∧ intersection a [] = [] := by
  refine ⟨intersection_eq_filter a b, ?_, ?_, rfl, ?_⟩
  · rw [intersection_eq_filter]
    exact List.filter_sublist a
  · intro x
    rw [intersection_eq_filter]
    simp [List.mem_filter]
  · rw [intersection_eq_filter]
    simp

/-- C12 witness: the first case of `TestIntersection`. -/
theorem intersection_spec_witness :
    intersection ["1", "2", "3"] ["2", "3", "4"] = ["2", "3"]
    ∧ ("2" ∈ intersection ["1", "2", "3"] ["2", "3", "4"]
        ↔ "2" ∈ ["1", "2", "3"] ∧ "2" ∈ ["2", "3", "4"]) :=
  ⟨by decide, (intersection_spec ["1", "2", "3"] ["2", "3", "4"]).2.2.1 "2"⟩

/-- C11, as stated, fails: the recorded backend `fe80::1` at port 9090 has its
text `fe80::1:9090` in the removal set (configured port 8080), and the
deregister call issued by the pass carries no entry at all, because the text
splits into four parts at its colons: zero entries for a removal set of size
one. -/
theorem deregister_parse_counterexample :
    ipv6Cache.backends scenarioKey = [{ IP := "fe80::1", Port := 9090 }]
    ∧ formatIPPort "fe80::1" 9090 = "fe80::1:9090"
    ∧ oldIPs ipv6Cache "ns" "app" [] scenarioTarget = ["fe80::1:9090"]
    ∧ splitColon "fe80::1:9090" = ["fe80", "", "1", "9090"]
    ∧ deregisterCalls
        (syncPodToLB silentWorld 1 2 3 ipv6Cache (some []) "ns" "app").events
      = [("lb-1", [])]
    ∧ (deregisterTargetsOf scenarioTarget
        (oldIPs ipv6Cache "ns" "app" [] scenarioTarget)).length
      ≠ (oldIPs ipv6Cache "ns" "app" [] scenarioTarget).length := by
  decide

/-- C11 (amended): deregistration parses each `IP:port` string that splits
into exactly two parts back into its components. For the cache `cfg` a pass
works on and every target `t`: the entries of the deregister call are, in
order, one per recorded backend at another port than the configured one whose
IP contains no colon, each with that IP and the port scanned back from its
text; when the removal set is not empty the call with these entries is among
the deregister calls issued by `syncPodToLB`; for every recorded backend
(ip, port) whose text is in the removal set, whose ip contains no colon and
whose port is a 64-bit integer, the call carries the entry with EniIP `ip` and
Port `port`; the number of entries equals the size of the removal set when no
recorded backend at another port has a colon in its IP, and never exceeds
it. -/
theorem deregister_entries (w : World) (nowGet now nowEnd : Int) (c cfg : Config)
    (podIPs : List String) (ns dn : String) (t : ConfigTarget)
    (hcfg : cfg = (GetTargets w nowGet now nowEnd c (targetKey ns dn)).config) :
    deregisterTargetsOf t (oldIPs cfg ns dn podIPs t)
      = (((cfg.backends (backendKeyOf ns dn t.LoadBalancerID t.ListenerID t.LocationID)).filter
            (fun b => decide (b.Port ≠ t.Port))).filter
          (fun b => decide (':' ∉ b.IP.data))).map (backendEntry t)
    ∧ (t ∈ (GetTargets w nowGet now nowEnd c (targetKey ns dn)).targets →
        oldIPs cfg ns dn podIPs t ≠ [] →
        (t.LoadBalancerID, deregisterTargetsOf t (oldIPs cfg ns dn podIPs t))
          ∈ deregisterCalls (syncPodToLB w nowGet now nowEnd c (some podIPs) ns dn).events)
    ∧ (∀ b ∈ cfg.backends (backendKeyOf ns dn t.LoadBalancerID t.ListenerID t.LocationID),
        formatIPPort b.IP b.Port ∈ oldIPs cfg ns dn podIPs t →
        ':' ∉ b.IP.data → -(2 : Int) ^ 63 ≤ b.Port → b.Port < (2 : Int) ^ 63 →
        ({ LoadBalancerID := t.LoadBalancerID, ListenerID := t.ListenerID,
           LocationID := t.LocationID, EniIP := b.IP, Port := b.Port } : DeregisterTarget)
          ∈ deregisterTargetsOf t (oldIPs cfg ns dn podIPs t))
    ∧ ((∀ b ∈ cfg.backends (backendKeyOf ns dn t.LoadBalancerID t.ListenerID t.LocationID),
          b.Port ≠ t.Port → ':' ∉ b.IP.data) →
        (deregisterTargetsOf t (oldIPs cfg ns dn podIPs t)).length
          = (oldIPs cfg ns dn podIPs t).length)
    ∧ (deregisterTargetsOf t (oldIPs cfg ns dn podIPs t)).length
        ≤ (oldIPs cfg ns dn podIPs t).length := by
  refine ⟨deregisterTargetsOf_oldIPs cfg ns dn podIPs t, ?_, ?_, ?_, ?_⟩
  · intro ht hne
    subst hcfg
    exact deregisterCall_mem_pass w nowGet now nowEnd c podIPs ns dn t ht hne
  · intro b hb hmem hip hlo hhi
    rw [deregisterTargetsOf_oldIPs, ← backendEntry_port t b hlo hhi]
    have hport := (mem_oldIPs_iff cfg ns dn podIPs t b hb).mp hmem
    exact List.mem_map.mpr ⟨b, List.mem_filter.mpr
      ⟨List.mem_filter.mpr ⟨hb, by simpa using hport⟩, by simpa using hip⟩, rfl⟩
  · intro hall
    rw [deregisterTargetsOf_oldIPs, oldIPs_eq_changePort, GetBackendChangePortIPs_eq,
      List.length_map, List.length_map]
    congr 1
    rw [List.filter_eq_self]
    intro b hb
    have hb2 := List.mem_filter.mp hb
    have hne : b.Port ≠ t.Port := by simpa using hb2.2
    simpa using hall b hb2.1 hne
  · rw [deregisterTargetsOf_oldIPs, oldIPs_eq_changePort, GetBackendChangePortIPs_eq,
      List.length_map, List.length_map]
    exact List.length_filter_le _ _

/-- C11 (amended) witness: recorded `10.0.0.5:9090`, configured port 8080; the
deregister call of the pass carries `10.0.0.5` at port 9090, one entry for a
removal set of size one. -/
theorem deregister_entries_witness :
    ({ LoadBalancerID := "lb-1", ListenerID := "lbl-1", LocationID := "loc-1",
       EniIP := "10.0.0.5", Port := 9090 } : DeregisterTarget)
      ∈ deregisterTargetsOf scenarioTarget
          (oldIPs portChangeCache "ns" "app" ["10.0.0.5"] scenarioTarget)
    ∧ ("lb-1", deregisterTargetsOf scenarioTarget
          (oldIPs portChangeCache "ns" "app" ["10.0.0.5"] scenarioTarget))
        ∈ deregisterCalls
            (syncPodToLB silentWorld 1 2 3 portChangeCache (some ["10.0.0.5"]) "ns"
              "app").events
    ∧ (deregisterTargetsOf scenarioTarget
          (oldIPs portChangeCache "ns" "app" ["10.0.0.5"] scenarioTarget)).length
        = (oldIPs portChangeCache "ns" "app" ["10.0.0.5"] scenarioTarget).length :=
  ⟨(deregister_entries silentWorld 1 2 3 portChangeCache portChangeCache ["10.0.0.5"] "ns"
      "app" scenarioTarget rfl).2.2.1 { IP := "10.0.0.5", Port := 9090 }
      (by decide) (by decide) (by decide) (by decide) (by decide),
   (deregister_entries silentWorld 1 2 3 portChangeCache portChangeCache ["10.0.0.5"] "ns"
      "app" scenarioTarget rfl).2.1 (by decide) (by decide),
   (deregister_entries silentWorld 1 2 3 portChangeCache portChangeCache ["10.0.0.5"] "ns"
      "app" scenarioTarget rfl).2.2.2.1 (by decide)⟩

/-- C13, as stated, fails in its last part: with `10.0.0.5` and `2001:db8::5`
both recorded at port 9090, configured port 8080 and no pod observed, the
removal set is the list of both backends, as `GetBackendChangePortIPs` gives
it, but the deregister call of the pass carries only `10.0.0.5`: the backend
`2001:db8::5`, recorded at a non-configured port, is not deregistered. -/
theorem removal_set_counterexample :
    mixedCache.backends scenarioKey
      = [{ IP := "10.0.0.5", Port := 9090 }, { IP := "2001:db8::5", Port := 9090 }]
    ∧ scenarioTarget.Port = 8080
    ∧ oldIPs mixedCache "ns" "app" [] scenarioTarget
        = GetBackendChangePortIPs mixedCache scenarioKey 8080
    ∧ oldIPs mixedCache "ns" "app" [] scenarioTarget
        = ["10.0.0.5:9090", "2001:db8::5:9090"]
    ∧ deregisterCalls
        (syncPodToLB silentWorld 1 2 3 mixedCache (some []) "ns" "app").events
      = [("lb-1", [{ LoadBalancerID := "lb-1", ListenerID := "lbl-1", LocationID := "loc-1",
                     EniIP := "10.0.0.5", Port := 9090 }])]
    ∧ ¬ ∃ call ∈ deregisterCalls
          (syncPodToLB silentWorld 1 2 3 mixedCache (some []) "ns" "app").events,
        ∃ e ∈ call.2, e.EniIP = "2001:db8::5" := by
  decide

/-- C13 (amended): the removal set does not depend on the observed pods. For
the cache `cfg` a pass works on, every target `t` with configured port `p` and
every list of desired pod IPs, the removal set
`intersection (difference registeredIPPorts desiredIPPorts) otherPortIPPorts`
computed in `syncPodToLB` equals `GetBackendChangePortIPs key p`, the list of
the texts of all recorded backends whose port differs from `p`, and so is the
same for every list of pod IPs, because a text `ip:q` with `q` different from
`p` never equals a desired text `ip2:p`. So every backend recorded at a
non-configured port is in the removal set and the pass issues the deregister
call built from that set, even when no pod was observed at the configured
port; the call carries the backend when its IP contains no colon (and its
port is a 64-bit integer). -/
theorem removal_set_independent_of_pods (w : World) (nowGet now nowEnd : Int)
    (c cfg : Config) (podIPs : List String) (ns dn : String) (t : ConfigTarget)
    (hcfg : cfg = (GetTargets w nowGet now nowEnd c (targetKey ns dn)).config) :
    oldIPs cfg ns dn podIPs t
      = GetBackendChangePortIPs cfg
          (backendKeyOf ns dn t.LoadBalancerID t.ListenerID t.LocationID) t.Port
    ∧ GetBackendChangePortIPs cfg
          (backendKeyOf ns dn t.LoadBalancerID t.ListenerID t.LocationID) t.Port
        = ((cfg.backends (backendKeyOf ns dn t.LoadBalancerID t.ListenerID t.LocationID)).filter
            (fun b => decide (b.Port ≠ t.Port))).map (fun b => formatIPPort b.IP b.Port)
    ∧ (∀ podIPs2, oldIPs cfg ns dn podIPs2 t = oldIPs cfg ns dn podIPs t)
    ∧ (∀ (ip ip2 : String) (q : Int), q ≠ t.Port →
        formatIPPort ip q ≠ formatIPPort ip2 t.Port)
    ∧ (∀ b ∈ cfg.backends (backendKeyOf ns dn t.LoadBalancerID t.ListenerID t.LocationID),
        b.Port ≠ t.Port →
        formatIPPort b.IP b.Port ∈ oldIPs cfg ns dn podIPs t
        ∧ (t ∈ (GetTargets w nowGet now nowEnd c (targetKey ns dn)).targets →
            (t.LoadBalancerID, deregisterTargetsOf t (oldIPs cfg ns dn podIPs t))
              ∈ deregisterCalls
                  (syncPodToLB w nowGet now nowEnd c (some podIPs) ns dn).events)
        ∧ (':' ∉ b.IP.data → -(2 : Int) ^ 63 ≤ b.Port → b.Port < (2 : Int) ^ 63 →
            ({ LoadBalancerID := t.LoadBalancerID, ListenerID := t.ListenerID,
               LocationID := t.LocationID, EniIP := b.IP, Port := b.Port } : DeregisterTarget)
              ∈ deregisterTargetsOf t (oldIPs cfg ns dn podIPs t))) := by
  refine ⟨oldIPs_eq_changePort cfg ns dn podIPs t, GetBackendChangePortIPs_eq cfg _ _, ?_, ?_, ?_⟩
  · intro podIPs2
    rw [oldIPs_eq_changePort, oldIPs_eq_changePort]
  · intro ip ip2 q hq heq
    exact hq (formatIPPort_injective _ _ _ _ heq).2
  · intro b hb hport
    have hmem := (mem_oldIPs_iff cfg ns dn podIPs t b hb).mpr hport
    refine ⟨hmem, ?_, ?_⟩
    · intro ht
      subst hcfg
      exact deregisterCall_mem_pass w nowGet now nowEnd c podIPs ns dn t ht
        (List.ne_nil_of_mem hmem)
    · intro hip hlo hhi
      rw [deregisterTargetsOf_oldIPs, ← backendEntry_port t b hlo hhi]
      exact List.mem_map.mpr ⟨b, List.mem_filter.mpr
        ⟨List.mem_filter.mpr ⟨hb, by simpa using hport⟩, by simpa using hip⟩, rfl⟩

/-- C13 (amended) witness: recorded `10.0.0.5:9090`, configured port 8080, no
pod observed: the removal set is `10.0.0.5:9090` and the deregister call of
the pass carries it. -/
theorem removal_set_independent_of_pods_witness :
    oldIPs portChangeCache "ns" "app" [] scenarioTarget = ["10.0.0.5:9090"]
    ∧ oldIPs portChangeCache "ns" "app" ["10.0.0.5", "10.0.0.7"] scenarioTarget
        = oldIPs portChangeCache "ns" "app" [] scenarioTarget
    ∧ ("lb-1", deregisterTargetsOf scenarioTarget
          (oldIPs portChangeCache "ns" "app" [] scenarioTarget))
        ∈ deregisterCalls
            (syncPodToLB silentWorld 1 2 3 portChangeCache (some []) "ns" "app").events
    ∧ ({ LoadBalancerID := "lb-1", ListenerID := "lbl-1", LocationID := "loc-1",
         EniIP := "10.0.0.5", Port := 9090 } : DeregisterTarget)
        ∈ deregisterTargetsOf scenarioTarget
            (oldIPs portChangeCache "ns" "app" [] scenarioTarget) :=
  ⟨by decide,
   (removal_set_independent_of_pods silentWorld 1 2 3 portChangeCache portChangeCache []
      "ns" "app" scenarioTarget rfl).2.2.1 ["10.0.0.5", "10.0.0.7"],
   ((removal_set_independent_of_pods silentWorld 1 2 3 portChangeCache portChangeCache []
      "ns" "app" scenarioTarget rfl).2.2.2.2 { IP := "10.0.0.5", Port := 9090 }
      (by decide) (by decide)).2.1 (by decide),
   ((removal_set_independent_of_pods silentWorld 1 2 3 portChangeCache portChangeCache []
      "ns" "app" scenarioTarget rfl).2.2.2.2 { IP := "10.0.0.5", Port := 9090 }
      (by decide) (by decide)).2.2 (by decide) (by decide) (by decide)⟩

end SyncPodToClb


